import Mathlib

/-!
# Segment / triangle and segment / sphere tests of `LineSegmentIntersector.cpp`

A shallow embedding of `src/Desktop/vsgintersection/LineSegmentIntersector.cpp`.

Two readings of the arithmetic.  In the exact reading `float` and `double` are one
linearly ordered field `K` (the exact reals, or the rationals when a value is evaluated),
so the conversions `vec3 f_start(start)` are the identity.  The square root taken by
`vsg::length` and by `sqrt` is a parameter `sqrt : K → K`; a theorem that needs a law of
the square root states it as a hypothesis (`IsSqrt`).  A division whose divisor is zero has
no value over the exact reals: the embedding divides with `checkedDiv`, which stops with
`Fault.divByZero` there, so every function that divides returns in `Except Fault`.
Likewise `at(i)` on a vsg array is read with `checkedAt`, which stops with
`Fault.outOfRange` when `i` is not a position of the array.  In the rounded reading
(`constructRounded`, `intersectRounded`, `intersectsRounded`) `float` and `double` are
IEEE 754 binary32 and binary64 and every operation rounds to nearest, ties to even.  A
property proved in the exact reading is a property of the formulas of the program; the
rounded reading shows, at concrete inputs, where the computed values depart from it.
Output written to `std::cout` is not part of the embedding.
-/

namespace VsgIntersection

/-! ## Vectors (`vsg::vec3`, `vsg::dvec3`) -/

/-- Three components, as `vsg::t_vec3`. -/
structure Vec3 (K : Type) where
  x : K
  y : K
  z : K
deriving DecidableEq, Repr

namespace Vec3

variable {K : Type}

/-- Componentwise `operator-`. -/
def sub [Sub K] (a b : Vec3 K) : Vec3 K := ⟨a.x - b.x, a.y - b.y, a.z - b.z⟩

/-- Componentwise `operator+`. -/
def add [Add K] (a b : Vec3 K) : Vec3 K := ⟨a.x + b.x, a.y + b.y, a.z + b.z⟩

/-- Vector times scalar, `operator*(vec, scalar)` and `operator*=`. -/
def scale [Mul K] (a : Vec3 K) (k : K) : Vec3 K := ⟨a.x * k, a.y * k, a.z * k⟩

/-- The vector `vec3(0.0, 0.0, 0.0)`. -/
def zero [Zero K] : Vec3 K := ⟨0, 0, 0⟩

/-- Scalar product, `vsg::dot`. -/
def dot [Add K] [Mul K] (a b : Vec3 K) : K := a.x * b.x + a.y * b.y + a.z * b.z

/-- Vector product, `vsg::cross`. -/
def cross [Sub K] [Mul K] (a b : Vec3 K) : Vec3 K :=
  ⟨a.y * b.z - a.z * b.y, a.z * b.x - a.x * b.z, a.x * b.y - a.y * b.x⟩

/-- Squared length, `vsg::length2`. -/
def length2 [Add K] [Mul K] (a : Vec3 K) : K := a.x * a.x + a.y * a.y + a.z * a.z

/-- Length, `vsg::length`: the square root of the squared length. -/
def length [Add K] [Mul K] (sqrt : K → K) (a : Vec3 K) : K := sqrt (length2 a)

end Vec3

/-! ## Checked division and checked access -/

/-- The ways a run can fail to have a value: a division by zero, a read of an array
outside its range, and a floating-point result that is not a finite number. -/
inductive Fault where
  | divByZero
  | outOfRange
  | notFinite
deriving DecidableEq, Repr

/-- Division `a / b`, defined only for a non-zero divisor. -/
def checkedDiv {K : Type} [LinearOrderedField K] (a b : K) : Except Fault K :=
  if b = 0 then Except.error Fault.divByZero else Except.ok (a / b)

/-- Vector divided by a scalar, `operator/(vec, scalar)`. -/
def checkedVecDiv {K : Type} [LinearOrderedField K] (a : Vec3 K) (k : K) :
    Except Fault (Vec3 K) :=
  if k = 0 then Except.error Fault.divByZero else Except.ok ⟨a.x / k, a.y / k, a.z / k⟩

/-- The laws of the real square root on non-negative arguments. -/
def IsSqrt {K : Type} [LinearOrderedField K] (sqrt : K → K) : Prop :=
  ∀ x : K, 0 ≤ x → 0 ≤ sqrt x ∧ sqrt x * sqrt x = x

/-! ## `struct TriangleIntersector` -/

/-- The data members of `struct TriangleIntersector`. -/
structure TriangleIntersector (K : Type) where
  start : Vec3 K
  end_ : Vec3 K
  _d : Vec3 K
  _length : K
  _inverse_length : K
  _d_invX : Vec3 K
  _d_invY : Vec3 K
  _d_invZ : Vec3 K

/-- The locals `r`, `r0`, `r1`, `r2` (and the branch local `t`) of
`TriangleIntersector::intersect` at the point where it reaches `return true`. -/
structure Hit (K : Type) where
  r : K
  r0 : K
  r1 : K
  r2 : K
  t : K
deriving DecidableEq, Repr

/-- The constant `const value_type epsilon = 1e-10` of `TriangleIntersector::intersect`:
the `float` nearest to `1e-10`, which is `14411519 / 2^57`. -/
def epsilon {K : Type} [LinearOrderedField K] : K := 14411519 / 2 ^ 57

namespace TriangleIntersector

variable {K : Type} [LinearOrderedField K]

/-- The constructor `TriangleIntersector(const vec3& s, const vec3& e)`. -/
def construct (sqrt : K → K) (s e : Vec3 K) : Except Fault (TriangleIntersector K) := do
  let d0 := Vec3.sub e s
  let len := Vec3.length sqrt d0
  let inv ← (if len ≠ 0 then checkedDiv 1 len else pure 0)
  let d := Vec3.scale d0 inv
  let dx ← (if d.x ≠ 0 then checkedVecDiv d d.x else pure Vec3.zero)
  let dy ← (if d.y ≠ 0 then checkedVecDiv d d.y else pure Vec3.zero)
  let dz ← (if d.z ≠ 0 then checkedVecDiv d d.z else pure Vec3.zero)
  pure
    { start := s, end_ := e, _d := d, _length := len, _inverse_length := inv,
      _d_invX := dx, _d_invY := dy, _d_invZ := dz }

/-- The method `TriangleIntersector::intersect(v0, v1, v2)`.  `some h` is
`return true`, reached with the locals `h`; `none` is `return false`. -/
def intersect (ti : TriangleIntersector K) (v0 v1 v2 : Vec3 K) :
    Except Fault (Option (Hit K)) :=
  let T := Vec3.sub ti.start v0
  let E2 := Vec3.sub v2 v0
  let E1 := Vec3.sub v1 v0
  let P := Vec3.cross ti._d E2
  let det := Vec3.dot P E1
  if det > epsilon then
    let u := Vec3.dot P T
    if u < 0 ∨ u > det then pure none else
    let Q := Vec3.cross T E1
    let v := Vec3.dot Q ti._d
    if v < 0 ∨ v > det then pure none else
    if u + v > det then pure none else do
    let inv_det ← checkedDiv 1 det
    let t := Vec3.dot Q E2 * inv_det
    if t < 0 ∨ t > ti._length then pure none else
    let u := u * inv_det
    let v := v * inv_det
    pure (some { r0 := 1 - u - v, r1 := u, r2 := v, r := t * ti._inverse_length, t := t })
  else if det < -epsilon then
    let u := Vec3.dot P T
    if u > 0 ∨ u < det then pure none else
    let Q := Vec3.cross T E1
    let v := Vec3.dot Q ti._d
    if v > 0 ∨ v < det then pure none else
    if u + v < det then pure none else do
    let inv_det ← checkedDiv 1 det
    let t := Vec3.dot Q E2 * inv_det
    if t < 0 ∨ t > ti._length then pure none else
    let u := u * inv_det
    let v := v * inv_det
    pure (some { r0 := 1 - u - v, r1 := u, r2 := v, r := t * ti._inverse_length, t := t })
  else
    pure none

end TriangleIntersector

/-! ## `vsg::dsphere` and `class LineSegmentIntersector` -/

/-- A bounding sphere, `vsg::dsphere`: `center` and `radius`. -/
structure Sphere (K : Type) where
  center : Vec3 K
  radius : K
deriving DecidableEq, Repr

/-- The test `dsphere::valid()` of the vsg library: `radius >= 0.0`. -/
def Sphere.valid {K : Type} [LinearOrderedField K] (bs : Sphere K) : Prop := bs.radius ≥ 0

instance {K : Type} [LinearOrderedField K] (bs : Sphere K) : Decidable bs.valid :=
  inferInstanceAs (Decidable (bs.radius ≥ 0))

/-- The data members of `LineSegmentIntersector`: the endpoints and the
intersection records gathered so far.  The record type `R` is declared in the
header, which is not part of the source at hand. -/
structure LineSegmentIntersector (K : Type) (R : Type) where
  start : Vec3 K
  end_ : Vec3 K
  intersections : List R

namespace LineSegmentIntersector

variable {K : Type} [LinearOrderedField K] {R : Type}

/-- The method `LineSegmentIntersector::intersects(const dsphere& bs)`.  It assigns
no data member, so the embedding returns the `bool` alone. -/
def intersects (sqrt : K → K) (self : LineSegmentIntersector K R) (bs : Sphere K) :
    Except Fault Bool :=
  if ¬ bs.valid then pure false else
  let sm := Vec3.sub self.start bs.center
  let c := Vec3.length2 sm - bs.radius * bs.radius
  if c < 0 then pure true else
  let se := Vec3.sub self.end_ self.start
  let a := Vec3.length2 se
  let b := Vec3.dot sm se * 2
  let d := b * b - 4 * a * c
  if d < 0 then pure false else
  let d := sqrt d
  do
  let div ← checkedDiv 1 (2 * a)
  let r1 := (-b - d) * div
  let r2 := (-b + d) * div
  if r1 ≤ 0 ∧ r2 ≤ 0 then pure false else
  if r1 ≥ 1 ∧ r2 ≥ 1 then pure false else
  pure true

end LineSegmentIntersector

/-! ## Geometry buffers, `transform` and the two `intersect` methods -/

/-- Element `i` of an array, `Array::at(i)`, defined only for a position of the array. -/
def checkedAt {α : Type} (xs : List α) (i : Nat) : Except Fault α :=
  match xs[i]? with
  | some x => Except.ok x
  | none => Except.error Fault.outOfRange

/-- The kinds of `vsg::Data` the program tells apart: an array of `vec3`, an array of
`ushort`, and every other kind. -/
inductive Data (K : Type) where
  | vec3Array (xs : List (Vec3 K))
  | ushortArray (xs : List Nat)
  | other

/-- The cast `ref_ptr<Data>::cast<vec3Array>()`: null for a null pointer and for data
of another kind. -/
def castVec3Array {K : Type} : Option (Data K) → Option (List (Vec3 K))
  | some (Data.vec3Array xs) => some xs
  | _ => none

/-- The cast `ref_ptr<Data>::cast<ushortArray>()`. -/
def castUshortArray {K : Type} : Option (Data K) → Option (List Nat)
  | some (Data.ushortArray xs) => some xs
  | _ => none

/-- The value `VK_PRIMITIVE_TOPOLOGY_TRIANGLE_LIST` of `VkPrimitiveTopology`. -/
def VK_PRIMITIVE_TOPOLOGY_TRIANGLE_LIST : Nat := 3

/-- The number of values of `uint32_t`. -/
def uint32Size : Nat := 4294967296

namespace LineSegmentIntersector

variable {K : Type} [LinearOrderedField K] {R : Type}

/-- The constructor `LineSegmentIntersector(const dvec3& s, const dvec3& e)`: the
intersection records start empty. -/
def create (s e : Vec3 K) : LineSegmentIntersector K R :=
  { start := s, end_ := e, intersections := [] }

/-- The method `transform(const dmat4& m)`: the new intersector, and the receiver after
the call.  The product `m * v` of the vsg library is the parameter `mul`. -/
def transform {M : Type} (mul : M → Vec3 K → Vec3 K) (self : LineSegmentIntersector K R)
    (m : M) : LineSegmentIntersector K R × LineSegmentIntersector K R :=
  let transformed := create (mul m self.start) (mul m self.end_)
  (transformed, self)

/-- The method `intersects(const dsphere& bs)` with the receiver after the call. -/
def intersectsCall (sqrt : K → K) (self : LineSegmentIntersector K R) (bs : Sphere K) :
    Except Fault (Bool × LineSegmentIntersector K R) :=
  (intersects sqrt self bs).map (fun b => (b, self))

/-- The non-indexed method `intersect(topology, arrays, firstVertex, vertexCount)`: the
`bool` it returns and the receiver after the call. -/
def intersect (self : LineSegmentIntersector K R) (_topology : Nat)
    (_arrays : List (Option (Data K))) (_firstVertex _vertexCount : Nat) :
    Bool × LineSegmentIntersector K R :=
  (false, self)

/-- The measure that decreases along the `for` loop of the indexed `intersect`.  The
loop variable wraps modulo `2^32`; as `2^32 = 1 (mod 3)`, a wrap lowers `i % 3` by one,
and a value `i` with `i % 3 = 0` below `endIndex` does not wrap. -/
def loopMeasure (i : Nat) : Nat :=
  (i % 3 + 1) * uint32Size - 1 - i

/-- The loop `for(uint32_t i = firstIndex; i<endIndex; i+=3)` of the indexed
`intersect`, from the value `i` of the loop variable on: the receiver after the loop.
The result of `triIntsector.intersect` is not used. -/
def triangleLoop (triIntsector : TriangleIntersector K) (vertices : List (Vec3 K))
    (us_indices : List Nat) (endIndex : Nat) (hend : endIndex < uint32Size) (i : Nat)
    (self : LineSegmentIntersector K R) : Except Fault (LineSegmentIntersector K R) :=
  if h : i < endIndex then do
    let i0 ← checkedAt us_indices i
    let v0 ← checkedAt vertices i0
    let i1 ← checkedAt us_indices ((i + 1) % uint32Size)
    let v1 ← checkedAt vertices i1
    let i2 ← checkedAt us_indices ((i + 2) % uint32Size)
    let v2 ← checkedAt vertices i2
    let _ ← TriangleIntersector.intersect triIntsector v0 v1 v2
    triangleLoop triIntsector vertices us_indices endIndex hend ((i + 3) % uint32Size) self
  else
    pure self
termination_by loopMeasure i
decreasing_by
  simp only [loopMeasure, uint32Size] at *
  omega

/-- The indexed method `intersect(topology, arrays, indices, firstIndex, indexCount)`:
the `bool` it returns and the receiver after the call. -/
def intersectIndexed (sqrt : K → K) (self : LineSegmentIntersector K R) (topology : Nat)
    (arrays : List (Option (Data K))) (indices : Option (Data K))
    (firstIndex indexCount : Nat) : Except Fault (Bool × LineSegmentIntersector K R) :=
  if arrays.isEmpty ∨ indices.isNone ∨ indexCount = 0 then pure (false, self) else
  match castVec3Array (arrays.headD none), castUshortArray indices with
  | some vertices, some us_indices =>
    let previous_size := self.intersections.length
    let endIndex := (firstIndex + indexCount) % uint32Size
    if topology = VK_PRIMITIVE_TOPOLOGY_TRIANGLE_LIST then do
      let triIntsector ← TriangleIntersector.construct sqrt self.start self.end_
      let self' ← triangleLoop triIntsector vertices us_indices endIndex
        (Nat.mod_lt _ (by decide)) firstIndex self
      pure (decide (self'.intersections.length ≠ previous_size), self')
    else
      pure (decide (self.intersections.length ≠ previous_size), self)
  | _, _ => pure (false, self)

end LineSegmentIntersector

/-! ## The rounded reading: `float` and `double` as IEEE 754 binary32 and binary64

The definitions above read the arithmetic exactly.  The definitions of this section read
it as the program computes it: a value of `float` or `double` is the rational number it
stands for, and every operation returns the value of its format nearest to the exact
result, ties to even, with no contraction of `a*b + c`.  A result that is not a finite
number (an overflow, a division by zero, the square root of a negative number) stops the
run with a `Fault`: the rounded reading describes the runs whose values are all finite,
where the sign of a zero has no effect. -/

/-- A binary floating-point format: the precision in bits and the exponent range. -/
structure Format where
  precision : Nat
  emin : Int
  emax : Int

/-- The format of `float`. -/
def binary32 : Format := { precision := 24, emin := -126, emax := 127 }

/-- The format of `double`. -/
def binary64 : Format := { precision := 53, emin := -1022, emax := 1023 }

/-- The power `2^e` for an integer exponent. -/
def pow2 (e : Int) : ℚ :=
  if 0 ≤ e then ((2 ^ e.toNat : Nat) : ℚ) else 1 / ((2 ^ (-e).toNat : Nat) : ℚ)

/-- The number of halvings that bring `n` below 2, counted with `fuel` steps at most. -/
def log2Fuel : Nat → Nat → Nat
  | 0, _ => 0
  | fuel + 1, n => if n < 2 then 0 else log2Fuel fuel (n / 2) + 1

/-- The integer part of the binary logarithm of a positive natural number. -/
def natLog2 (n : Nat) : Nat := log2Fuel n n

/-- The integer part of the binary logarithm of a positive rational number. -/
def floorLog2 (q : ℚ) : Int :=
  let n := q.num.natAbs
  let d := q.den
  if d ≤ n then (natLog2 (n / d) : Int)
  else
    let j := natLog2 (d / n)
    if d ≤ 2 ^ j * n then -(j : Int) else -((j : Int) + 1)

/-- The integer nearest to `q`, the even one of two equally near. -/
def roundHalfEven (q : ℚ) : Int :=
  let f := Rat.floor q
  let r := q - f
  if r < 1 / 2 then f else if 1 / 2 < r then f + 1 else if f % 2 = 0 then f else f + 1

/-- The binary digits of the integer square root of `n`, from bit `b` down. -/
def sqrtBits (n : Nat) : Nat → Nat → Nat
  | 0, r => if (r + 1) * (r + 1) ≤ n then r + 1 else r
  | b + 1, r =>
    sqrtBits n b (if (r + 2 ^ (b + 1)) * (r + 2 ^ (b + 1)) ≤ n then r + 2 ^ (b + 1) else r)

/-- The integer part of the square root of a natural number. -/
def natSqrt (n : Nat) : Nat := sqrtBits n (natLog2 n / 2 + 1) 0

namespace Format

/-- The spacing of the values of the format at binary exponent `e`. -/
def ulp (f : Format) (e : Int) : ℚ := pow2 (max e f.emin - f.precision + 1)

/-- The value of the format, with the exponent unbounded above, nearest to `q`. -/
def nearest (f : Format) (q : ℚ) : ℚ :=
  if q = 0 then 0 else
  let u := f.ulp (floorLog2 |q|)
  (roundHalfEven (q / u) : ℚ) * u

/-- The value of the format, with the exponent unbounded above, nearest to the square
root of a positive `q`. -/
def nearestSqrt (f : Format) (q : ℚ) : ℚ :=
  let u := f.ulp (floorLog2 q / 2)
  let x := q / (u * u)
  let s := natSqrt (Rat.floor x).toNat
  let h := (s : ℚ) + 1 / 2
  let m := if x < h * h then s else if h * h < x then s + 1 else if s % 2 = 0 then s else s + 1
  (m : ℚ) * u

/-- The largest finite value of the format. -/
def largest (f : Format) : ℚ :=
  ((2 ^ f.precision - 1 : Nat) : ℚ) * pow2 (f.emax - f.precision + 1)

/-- A result `q` as the format stores it. -/
def finite (f : Format) (q : ℚ) : Except Fault ℚ :=
  if |q| ≤ f.largest then Except.ok q else Except.error Fault.notFinite

/-- Rounding of an exact result `q` to the format; also the conversion of a `double` to
`float`. -/
def round (f : Format) (q : ℚ) : Except Fault ℚ := f.finite (f.nearest q)

/-- The sum `a + b` in the format. -/
def add (f : Format) (a b : ℚ) : Except Fault ℚ := f.round (a + b)

/-- The difference `a - b` in the format. -/
def sub (f : Format) (a b : ℚ) : Except Fault ℚ := f.round (a - b)

/-- The product `a * b` in the format. -/
def mul (f : Format) (a b : ℚ) : Except Fault ℚ := f.round (a * b)

/-- The quotient `a / b` in the format. -/
def div (f : Format) (a b : ℚ) : Except Fault ℚ :=
  if b = 0 then Except.error Fault.divByZero else f.round (a / b)

/-- The square root `sqrt(a)` in the format. -/
def sqrt (f : Format) (a : ℚ) : Except Fault ℚ :=
  if a < 0 then Except.error Fault.notFinite
  else if a = 0 then Except.ok 0
  else f.finite (f.nearestSqrt a)

/-- The number `q` is a value of the format. -/
def IsValue (f : Format) (q : ℚ) : Prop := f.round q = Except.ok q

/-- The components of `v` are values of the format. -/
def IsVec (f : Format) (v : Vec3 ℚ) : Prop := f.IsValue v.x ∧ f.IsValue v.y ∧ f.IsValue v.z

/-- The expression `1.0 / x` with `x` a `float`, stored in a `float`: the division is done
in `double`. -/
def reciprocal (x : ℚ) : Except Fault ℚ := do
  let q ← binary64.div 1 x
  binary32.round q

/-- Componentwise `operator-` in the format. -/
def vsub (f : Format) (a b : Vec3 ℚ) : Except Fault (Vec3 ℚ) := do
  let x ← f.sub a.x b.x
  let y ← f.sub a.y b.y
  let z ← f.sub a.z b.z
  pure ⟨x, y, z⟩

/-- Vector times scalar in the format. -/
def vscale (f : Format) (a : Vec3 ℚ) (k : ℚ) : Except Fault (Vec3 ℚ) := do
  let x ← f.mul a.x k
  let y ← f.mul a.y k
  let z ← f.mul a.z k
  pure ⟨x, y, z⟩

/-- Scalar product `vsg::dot` in the format: `a.x*b.x + a.y*b.y + a.z*b.z`. -/
def vdot (f : Format) (a b : Vec3 ℚ) : Except Fault ℚ := do
  let xx ← f.mul a.x b.x
  let yy ← f.mul a.y b.y
  let zz ← f.mul a.z b.z
  let s ← f.add xx yy
  f.add s zz

/-- Vector product `vsg::cross` in the format. -/
def vcross (f : Format) (a b : Vec3 ℚ) : Except Fault (Vec3 ℚ) := do
  let yz ← f.mul a.y b.z
  let zy ← f.mul a.z b.y
  let x ← f.sub yz zy
  let zx ← f.mul a.z b.x
  let xz ← f.mul a.x b.z
  let y ← f.sub zx xz
  let xy ← f.mul a.x b.y
  let yx ← f.mul a.y b.x
  let z ← f.sub xy yx
  pure ⟨x, y, z⟩

/-- Squared length `vsg::length2` in the format. -/
def vlength2 (f : Format) (a : Vec3 ℚ) : Except Fault ℚ := f.vdot a a

/-- Length `vsg::length` in the format. -/
def vlength (f : Format) (a : Vec3 ℚ) : Except Fault ℚ := do
  let l ← f.vlength2 a
  f.sqrt l

/-- Vector divided by a scalar, `operator/(vec3, float)`: the vector times the
reciprocal. -/
def vdiv (a : Vec3 ℚ) (k : ℚ) : Except Fault (Vec3 ℚ) := do
  let inv ← reciprocal k
  binary32.vscale a inv

end Format

namespace TriangleIntersector

/-- The constructor `TriangleIntersector(const vec3& s, const vec3& e)` in `float`. -/
def constructRounded (s e : Vec3 ℚ) : Except Fault (TriangleIntersector ℚ) := do
  let d0 ← binary32.vsub e s
  let len ← binary32.vlength d0
  let inv ← (if len ≠ 0 then Format.reciprocal len else pure 0)
  let d ← binary32.vscale d0 inv
  let dx ← (if d.x ≠ 0 then Format.vdiv d d.x else pure Vec3.zero)
  let dy ← (if d.y ≠ 0 then Format.vdiv d d.y else pure Vec3.zero)
  let dz ← (if d.z ≠ 0 then Format.vdiv d d.z else pure Vec3.zero)
  pure
    { start := s, end_ := e, _d := d, _length := len, _inverse_length := inv,
      _d_invX := dx, _d_invY := dy, _d_invZ := dz }

/-- The statements of a signed branch of `intersect` after its three tests on `u` and `v`,
in `float`: `inv_det = 1.0/det` is computed in `double` and stored in a `float`, and
`r0 = 1.0-u-v` is computed in `double` and stored in a `float`. -/
def hitRounded (ti : TriangleIntersector ℚ) (det u v qe2 : ℚ) :
    Except Fault (Option (Hit ℚ)) := do
  let inv_det ← Format.reciprocal det
  let t ← binary32.mul qe2 inv_det
  if t < 0 ∨ t > ti._length then pure none else do
  let u ← binary32.mul u inv_det
  let v ← binary32.mul v inv_det
  let w ← binary64.sub 1 u
  let w ← binary64.sub w v
  let r0 ← binary32.round w
  let r ← binary32.mul t ti._inverse_length
  pure (some { r0 := r0, r1 := u, r2 := v, r := r, t := t })

/-- The method `TriangleIntersector::intersect(v0, v1, v2)` in `float`. -/
def intersectRounded (ti : TriangleIntersector ℚ) (v0 v1 v2 : Vec3 ℚ) :
    Except Fault (Option (Hit ℚ)) := do
  let T ← binary32.vsub ti.start v0
  let E2 ← binary32.vsub v2 v0
  let E1 ← binary32.vsub v1 v0
  let P ← binary32.vcross ti._d E2
  let det ← binary32.vdot P E1
  if det > epsilon then do
    let u ← binary32.vdot P T
    if u < 0 ∨ u > det then pure none else do
    let Q ← binary32.vcross T E1
    let v ← binary32.vdot Q ti._d
    if v < 0 ∨ v > det then pure none else do
    let uv ← binary32.add u v
    if uv > det then pure none else do
    let qe2 ← binary32.vdot Q E2
    hitRounded ti det u v qe2
  else if det < -epsilon then do
    let u ← binary32.vdot P T
    if u > 0 ∨ u < det then pure none else do
    let Q ← binary32.vcross T E1
    let v ← binary32.vdot Q ti._d
    if v > 0 ∨ v < det then pure none else do
    let uv ← binary32.add u v
    if uv < det then pure none else do
    let qe2 ← binary32.vdot Q E2
    hitRounded ti det u v qe2
  else
    pure none

end TriangleIntersector

namespace LineSegmentIntersector

/-- The method `LineSegmentIntersector::intersects(const dsphere& bs)` in `double`. -/
def intersectsRounded {R : Type} (self : LineSegmentIntersector ℚ R) (bs : Sphere ℚ) :
    Except Fault Bool :=
  if ¬ bs.valid then pure false else do
  let sm ← binary64.vsub self.start bs.center
  let l2 ← binary64.vlength2 sm
  let rr ← binary64.mul bs.radius bs.radius
  let c ← binary64.sub l2 rr
  if c < 0 then pure true else do
  let se ← binary64.vsub self.end_ self.start
  let a ← binary64.vlength2 se
  let smse ← binary64.vdot sm se
  let b ← binary64.mul smse 2
  let bb ← binary64.mul b b
  let a4 ← binary64.mul 4 a
  let a4c ← binary64.mul a4 c
  let d ← binary64.sub bb a4c
  if d < 0 then pure false else do
  let d ← binary64.sqrt d
  let a2 ← binary64.mul 2 a
  let div ← binary64.div 1 a2
  let n1 ← binary64.sub (-b) d
  let r1 ← binary64.mul n1 div
  let n2 ← binary64.add (-b) d
  let r2 ← binary64.mul n2 div
  if r1 ≤ 0 ∧ r2 ≤ 0 then pure false else
  if r1 ≥ 1 ∧ r2 ≥ 1 then pure false else
  pure true

end LineSegmentIntersector

/-! ## Vocabulary of the statements

The definitions below are not code of the program.  They name the local variables
of `TriangleIntersector::intersect` and of `LineSegmentIntersector::intersects` in
closed form and the geometric notions the properties speak about; `intersect_eq` and
`intersects_eq` relate them to the code. -/

/-- The weighted sum `w0*v0 + w1*v1 + w2*v2` of the vertices of a triangle. -/
def Vec3.combo {K : Type} [Add K] [Mul K] (v0 v1 v2 : Vec3 K) (w0 w1 w2 : K) : Vec3 K :=
  Vec3.add (Vec3.add (Vec3.scale v0 w0) (Vec3.scale v1 w1)) (Vec3.scale v2 w2)

/-- The point `s + r*(e - s)` of the line through `s` and `e`. -/
def segmentPoint {K : Type} [Add K] [Sub K] [Mul K] (s e : Vec3 K) (r : K) : Vec3 K :=
  Vec3.add s (Vec3.scale (Vec3.sub e s) r)

/-- The segment from `s` to `e` and the closed triangle `v0 v1 v2` have a common point. -/
def Meets {K : Type} [LinearOrderedField K] (s e v0 v1 v2 : Vec3 K) : Prop :=
  ∃ r w0 w1 w2 : K, 0 ≤ r ∧ r ≤ 1 ∧ 0 ≤ w0 ∧ 0 ≤ w1 ∧ 0 ≤ w2 ∧ w0 + w1 + w2 = 1 ∧
    Vec3.combo v0 v1 v2 w0 w1 w2 = segmentPoint s e r

/-- The segment from `s` to `e` passes through an interior point of the triangle
`v0 v1 v2`: a point of the segment with strictly positive barycentric weights. -/
def PassesInterior {K : Type} [LinearOrderedField K] (s e v0 v1 v2 : Vec3 K) : Prop :=
  ∃ r w0 w1 w2 : K, 0 ≤ r ∧ r ≤ 1 ∧ 0 < w0 ∧ 0 < w1 ∧ 0 < w2 ∧ w0 + w1 + w2 = 1 ∧
    Vec3.combo v0 v1 v2 w0 w1 w2 = segmentPoint s e r

namespace TriangleIntersector

variable {K : Type} [LinearOrderedField K]

/-- The local `det` of `intersect`. -/
def detOf (ti : TriangleIntersector K) (v0 v1 v2 : Vec3 K) : K :=
  Vec3.dot (Vec3.cross ti._d (Vec3.sub v2 v0)) (Vec3.sub v1 v0)

/-- The local `u` of `intersect` before it is scaled by `inv_det`. -/
def uOf (ti : TriangleIntersector K) (v0 v2 : Vec3 K) : K :=
  Vec3.dot (Vec3.cross ti._d (Vec3.sub v2 v0)) (Vec3.sub ti.start v0)

/-- The local `v` of `intersect` before it is scaled by `inv_det`. -/
def vOf (ti : TriangleIntersector K) (v0 v1 : Vec3 K) : K :=
  Vec3.dot (Vec3.cross (Vec3.sub ti.start v0) (Vec3.sub v1 v0)) ti._d

/-- The local `t` of `intersect`. -/
def tOf (ti : TriangleIntersector K) (v0 v1 v2 : Vec3 K) : K :=
  Vec3.dot (Vec3.cross (Vec3.sub ti.start v0) (Vec3.sub v1 v0)) (Vec3.sub v2 v0) *
    (1 / detOf ti v0 v1 v2)

/-- The tests a triangle passes on the way to `return true`. -/
def Accepts (ti : TriangleIntersector K) (v0 v1 v2 : Vec3 K) : Prop :=
  ((epsilon < detOf ti v0 v1 v2 ∧
      0 ≤ uOf ti v0 v2 ∧ uOf ti v0 v2 ≤ detOf ti v0 v1 v2 ∧
      0 ≤ vOf ti v0 v1 ∧ vOf ti v0 v1 ≤ detOf ti v0 v1 v2 ∧
      uOf ti v0 v2 + vOf ti v0 v1 ≤ detOf ti v0 v1 v2) ∨
    (detOf ti v0 v1 v2 < -epsilon ∧
      uOf ti v0 v2 ≤ 0 ∧ detOf ti v0 v1 v2 ≤ uOf ti v0 v2 ∧
      vOf ti v0 v1 ≤ 0 ∧ detOf ti v0 v1 v2 ≤ vOf ti v0 v1 ∧
      detOf ti v0 v1 v2 ≤ uOf ti v0 v2 + vOf ti v0 v1)) ∧
  0 ≤ tOf ti v0 v1 v2 ∧ tOf ti v0 v1 v2 ≤ ti._length

instance (ti : TriangleIntersector K) (v0 v1 v2 : Vec3 K) : Decidable (Accepts ti v0 v1 v2) := by
  unfold Accepts; infer_instance

/-- The locals of `intersect` at `return true`, in closed form. -/
def hitOf (ti : TriangleIntersector K) (v0 v1 v2 : Vec3 K) : Hit K :=
  { r := tOf ti v0 v1 v2 * ti._inverse_length
    r0 := 1 - uOf ti v0 v2 * (1 / detOf ti v0 v1 v2) - vOf ti v0 v1 * (1 / detOf ti v0 v1 v2)
    r1 := uOf ti v0 v2 * (1 / detOf ti v0 v1 v2)
    r2 := vOf ti v0 v1 * (1 / detOf ti v0 v1 v2)
    t := tOf ti v0 v1 v2 }

/-- The `bool` that `intersect` returns, without the locals. -/
def returned (ti : TriangleIntersector K) (v0 v1 v2 : Vec3 K) : Except Fault Bool :=
  (intersect ti v0 v1 v2).map Option.isSome

end TriangleIntersector

namespace LineSegmentIntersector

variable {K : Type} [LinearOrderedField K] {R : Type}

/-- The local `c` of `intersects`. -/
def cOf (self : LineSegmentIntersector K R) (bs : Sphere K) : K :=
  Vec3.length2 (Vec3.sub self.start bs.center) - bs.radius * bs.radius

/-- The local `a` of `intersects`. -/
def aOf (self : LineSegmentIntersector K R) : K :=
  Vec3.length2 (Vec3.sub self.end_ self.start)

/-- The local `b` of `intersects`. -/
def bOf (self : LineSegmentIntersector K R) (bs : Sphere K) : K :=
  Vec3.dot (Vec3.sub self.start bs.center) (Vec3.sub self.end_ self.start) * 2

/-- The squared distance from the sphere's centre to the point of the segment at
parameter `s`, less the squared radius. -/
def excess (self : LineSegmentIntersector K R) (bs : Sphere K) (s : K) : K :=
  Vec3.length2 (Vec3.sub (segmentPoint self.start self.end_ s) bs.center) -
    bs.radius * bs.radius

end LineSegmentIntersector

/-- Every position the loop of the indexed `intersect` reads is in range: for each triple
that starts below `firstIndex + indexCount`, its three positions are positions of the
index buffer and the three indices there are positions of the vertex buffer. -/
def TriplesInRange {K : Type} (vertices : List (Vec3 K)) (us_indices : List Nat)
    (firstIndex indexCount : Nat) : Prop :=
  ∀ k j : Nat, 3 * k < indexCount → j < 3 →
    ∃ n : Nat, us_indices[firstIndex + 3 * k + j]? = some n ∧ n < vertices.length

/-! ## Data of the scenarios -/

namespace TriangleIntersector

variable {K : Type} [LinearOrderedField K]

/-- The intersector of the vertical segment from `(x, y, z0)` to `(x, y, z1)` of length 2:
the value the constructor returns when `z1 - z0 = 2` (`construct_vertical`). -/
def vertical (x y z0 z1 : K) : TriangleIntersector K :=
  { start := ⟨x, y, z0⟩, end_ := ⟨x, y, z1⟩, _d := ⟨0, 0, 1⟩, _length := 2,
    _inverse_length := 1 / 2, _d_invX := Vec3.zero, _d_invY := Vec3.zero,
    _d_invZ := ⟨0, 0, 1⟩ }

end TriangleIntersector

end VsgIntersection

/-! ## Lemmas on the embedding -/

namespace VsgIntersection

section Helpers

variable {K : Type} [LinearOrderedField K]

theorem checkedDiv_of_ne (a : K) {b : K} (hb : b ≠ 0) : checkedDiv a b = Except.ok (a / b) := by
  simp [checkedDiv, hb]

theorem guardedDiv_ok (len : K) :
    (if len ≠ 0 then checkedDiv 1 len else (pure 0 : Except Fault K)) =
      Except.ok (if len ≠ 0 then 1 / len else 0) := by
  by_cases h : len = 0
  · simp [h]; rfl
  · simp [h, checkedDiv]

theorem guardedVecDiv_ok (d : Vec3 K) (k : K) :
    ∃ w : Vec3 K,
      (if k ≠ 0 then checkedVecDiv d k else (pure Vec3.zero : Except Fault (Vec3 K))) =
        Except.ok w := by
  by_cases h : k = 0
  · exact ⟨Vec3.zero, by simp [h]; rfl⟩
  · exact ⟨⟨d.x / k, d.y / k, d.z / k⟩, by simp [h, checkedVecDiv]⟩

theorem epsilon_pos : (0 : K) < epsilon := by
  unfold epsilon; positivity

theorem IsSqrt.sqrt_mul_self {sqrt : K → K} (hsqrt : IsSqrt sqrt) {a : K} (ha : 0 ≤ a) :
    sqrt (a * a) = a := by
  obtain ⟨h0, h1⟩ := hsqrt (a * a) (mul_nonneg ha ha)
  rcases mul_self_eq_mul_self_iff.mp h1 with h | h
  · exact h
  · have : a = 0 := by linarith
    rw [h, this, neg_zero]

theorem isSqrt_real : IsSqrt Real.sqrt :=
  fun x hx => ⟨Real.sqrt_nonneg x, Real.mul_self_sqrt hx⟩

theorem length2_nonneg (a : Vec3 K) : 0 ≤ Vec3.length2 a := by
  unfold Vec3.length2
  nlinarith [mul_self_nonneg a.x, mul_self_nonneg a.y, mul_self_nonneg a.z]

end Helpers

theorem eq_ok_of_toOption {α : Type} {x : Except Fault α} {v : α}
    (h : x.toOption = some v) : x = Except.ok v := by
  cases x with
  | error e => cases h
  | ok a => cases h; rfl

/-- The constant `epsilon` is the `float` nearest to `1e-10`. -/
theorem epsilon_rounded : binary32.round (1 / 10 ^ 10) = Except.ok epsilon :=
  eq_ok_of_toOption (by decide!)

namespace TriangleIntersector

variable {K : Type} [LinearOrderedField K]

/-- The constructor never divides by zero, and what it stores. -/
theorem construct_total (sqrt : K → K) (s e : Vec3 K) :
    ∃ ti : TriangleIntersector K, construct sqrt s e = Except.ok ti ∧
      ti.start = s ∧ ti.end_ = e ∧
      ti._length = Vec3.length sqrt (Vec3.sub e s) ∧
      ti._inverse_length = (if Vec3.length sqrt (Vec3.sub e s) ≠ 0
        then 1 / Vec3.length sqrt (Vec3.sub e s) else 0) ∧
      ti._d = Vec3.scale (Vec3.sub e s) ti._inverse_length := by
  unfold construct
  dsimp only
  rw [guardedDiv_ok]
  simp only [bind, Except.bind]
  generalize (if Vec3.length sqrt (Vec3.sub e s) ≠ 0
    then 1 / Vec3.length sqrt (Vec3.sub e s) else 0) = inv
  generalize hd : Vec3.scale (Vec3.sub e s) inv = d
  obtain ⟨wx, hx⟩ := guardedVecDiv_ok d d.x
  obtain ⟨wy, hy⟩ := guardedVecDiv_ok d d.y
  obtain ⟨wz, hz⟩ := guardedVecDiv_ok d d.z
  rw [hx, hy, hz]
  exact ⟨_, rfl, rfl, rfl, rfl, rfl, hd.symm⟩

theorem construct_facts {sqrt : K → K} {s e : Vec3 K} {ti : TriangleIntersector K}
    (hc : construct sqrt s e = Except.ok ti) :
    ti.start = s ∧ ti.end_ = e ∧
      ti._length = Vec3.length sqrt (Vec3.sub e s) ∧
      ti._inverse_length = (if ti._length ≠ 0 then 1 / ti._length else 0) ∧
      ti._d = Vec3.scale (Vec3.sub e s) ti._inverse_length := by
  obtain ⟨ti', h', h1, h2, h3, h4, h5⟩ := construct_total sqrt s e
  rw [hc] at h'
  cases h'
  exact ⟨h1, h2, h3, by rw [h3]; exact h4, h5⟩

/-- The method `intersect` never divides by zero, and its result in closed form. -/
theorem intersect_eq (ti : TriangleIntersector K) (v0 v1 v2 : Vec3 K) :
    intersect ti v0 v1 v2 =
      Except.ok (if Accepts ti v0 v1 v2 then some (hitOf ti v0 v1 v2) else none) := by
  have he : (0 : K) < epsilon := epsilon_pos
  have key : ∀ (det u v tn len il : K) (h : Hit K),
      h = { r := tn * (1 / det) * il, r0 := 1 - u * (1 / det) - v * (1 / det),
            r1 := u * (1 / det), r2 := v * (1 / det), t := tn * (1 / det) } →
      (if det > epsilon then
        if u < 0 ∨ u > det then (pure none : Except Fault (Option (Hit K))) else
        if v < 0 ∨ v > det then pure none else
        if u + v > det then pure none else do
        let inv_det ← checkedDiv 1 det
        if tn * inv_det < 0 ∨ tn * inv_det > len then pure none else
        pure (some { r0 := 1 - u * inv_det - v * inv_det, r1 := u * inv_det, r2 := v * inv_det,
                     r := tn * inv_det * il, t := tn * inv_det })
      else if det < -epsilon then
        if u > 0 ∨ u < det then pure none else
        if v > 0 ∨ v < det then pure none else
        if u + v < det then pure none else do
        let inv_det ← checkedDiv 1 det
        if tn * inv_det < 0 ∨ tn * inv_det > len then pure none else
        pure (some { r0 := 1 - u * inv_det - v * inv_det, r1 := u * inv_det, r2 := v * inv_det,
                     r := tn * inv_det * il, t := tn * inv_det })
      else pure none) =
      Except.ok (if ((epsilon < det ∧ 0 ≤ u ∧ u ≤ det ∧ 0 ≤ v ∧ v ≤ det ∧ u + v ≤ det) ∨
          (det < -epsilon ∧ u ≤ 0 ∧ det ≤ u ∧ v ≤ 0 ∧ det ≤ v ∧ det ≤ u + v)) ∧
          0 ≤ tn * (1 / det) ∧ tn * (1 / det) ≤ len then some h else none) := by
    intro det u v tn len il h hh
    subst hh
    by_cases h1 : det > epsilon
    · have hne : det ≠ 0 := by intro h; rw [h] at h1; exact absurd h1 (not_lt.mpr he.le)
      have h2 : ¬ det < -epsilon := by intro h; linarith
      simp only [h1, h2, if_true, checkedDiv_of_ne _ hne, bind, Except.bind, pure, Except.pure,
        gt_iff_lt, ← not_lt, true_and, false_and, or_false]
      split_ifs <;> first | rfl | (exfalso; tauto)
    · by_cases h2 : det < -epsilon
      · have hne : det ≠ 0 := by intro h; rw [h] at h2; linarith
        have h1' : ¬ epsilon < det := h1
        simp only [h1, h1', h2, if_true, if_false, checkedDiv_of_ne _ hne, bind, Except.bind, pure,
          Except.pure, gt_iff_lt, ← not_lt, true_and, false_and, false_or]
        split_ifs <;> first | rfl | (exfalso; tauto)
      · simp only [h1, h2, if_false]
        split_ifs with h
        · exfalso; rcases h.1 with h | h
          · exact h.1
          · exact h.1
        · rfl
  have := key (detOf ti v0 v1 v2) (uOf ti v0 v2) (vOf ti v0 v1)
    (Vec3.dot (Vec3.cross (Vec3.sub ti.start v0) (Vec3.sub v1 v0)) (Vec3.sub v2 v0))
    ti._length ti._inverse_length (hitOf ti v0 v1 v2) rfl
  exact this


theorem intersect_some {ti : TriangleIntersector K} {v0 v1 v2 : Vec3 K} {h : Hit K}
    (hi : intersect ti v0 v1 v2 = Except.ok (some h)) :
    Accepts ti v0 v1 v2 ∧ h = hitOf ti v0 v1 v2 := by
  rw [intersect_eq] at hi
  by_cases hA : Accepts ti v0 v1 v2
  · rw [if_pos hA] at hi
    cases hi
    exact ⟨hA, rfl⟩
  · rw [if_neg hA] at hi
    cases hi

theorem accepts_det_ne {ti : TriangleIntersector K} {v0 v1 v2 : Vec3 K}
    (hA : Accepts ti v0 v1 v2) : detOf ti v0 v1 v2 ≠ 0 := by
  have he : (0 : K) < epsilon := epsilon_pos
  rcases hA.1 with h | h
  · exact ne_of_gt (lt_trans he h.1)
  · exact ne_of_lt (by linarith [h.1])

theorem accepts_weights {ti : TriangleIntersector K} {v0 v1 v2 : Vec3 K}
    (hA : Accepts ti v0 v1 v2) :
    0 ≤ (hitOf ti v0 v1 v2).r0 ∧ 0 ≤ (hitOf ti v0 v1 v2).r1 ∧ 0 ≤ (hitOf ti v0 v1 v2).r2 ∧
      (hitOf ti v0 v1 v2).r0 + (hitOf ti v0 v1 v2).r1 + (hitOf ti v0 v1 v2).r2 = 1 := by
  have he : (0 : K) < epsilon := epsilon_pos
  simp only [hitOf]
  have hsum : ∀ a b d : K, 1 - a * (1 / d) - b * (1 / d) = 1 - (a + b) / d := by
    intro a b d; ring
  rcases hA.1 with ⟨hd, hu0, _, hv0, _, huv⟩ | ⟨hd, hu0, _, hv0, _, huv⟩
  · have hpos : 0 < detOf ti v0 v1 v2 := lt_trans he hd
    have hinv : 0 ≤ 1 / detOf ti v0 v1 v2 := le_of_lt (one_div_pos.mpr hpos)
    refine ⟨?_, mul_nonneg hu0 hinv, mul_nonneg hv0 hinv, by ring⟩
    rw [hsum, sub_nonneg]
    exact (div_le_one hpos).mpr huv
  · have hneg : detOf ti v0 v1 v2 < 0 := by linarith
    have hinv : 1 / detOf ti v0 v1 v2 ≤ 0 := le_of_lt (one_div_neg.mpr hneg)
    refine ⟨?_, mul_nonneg_of_nonpos_of_nonpos hu0 hinv,
      mul_nonneg_of_nonpos_of_nonpos hv0 hinv, by ring⟩
    rw [hsum, sub_nonneg]
    exact (div_le_one_of_neg hneg).mpr huv

theorem accepts_range {ti : TriangleIntersector K} {v0 v1 v2 : Vec3 K}
    (hA : Accepts ti v0 v1 v2)
    (hil : ti._inverse_length = (if ti._length ≠ 0 then 1 / ti._length else 0)) :
    0 ≤ (hitOf ti v0 v1 v2).r ∧ (hitOf ti v0 v1 v2).r ≤ 1 := by
  obtain ⟨_, ht0, ht1⟩ := hA
  simp only [hitOf]
  by_cases hl : ti._length = 0
  · rw [hil]; simp [hl]
  · have hpos : 0 < ti._length := lt_of_le_of_ne (le_trans ht0 ht1) (Ne.symm hl)
    rw [hil, if_pos hl, mul_one_div]
    exact ⟨div_nonneg ht0 hpos.le, (div_le_one hpos).mpr ht1⟩

/-- Cramer's rule: the weighted vertices are the point of the segment at `r`. -/
theorem hit_point {ti : TriangleIntersector K} {s e v0 v1 v2 : Vec3 K}
    (hd : detOf ti v0 v1 v2 ≠ 0) (hs : ti.start = s)
    (hdir : ti._d = Vec3.scale (Vec3.sub e s) ti._inverse_length) :
    Vec3.combo v0 v1 v2 (hitOf ti v0 v1 v2).r0 (hitOf ti v0 v1 v2).r1 (hitOf ti v0 v1 v2).r2 =
      segmentPoint s e (hitOf ti v0 v1 v2).r := by
  have hd' := hd
  simp only [detOf, hdir, hs] at hd'
  simp only [hitOf, tOf, uOf, vOf, detOf, hdir, hs, Vec3.combo, segmentPoint, Vec3.add,
    Vec3.scale, Vec3.sub, Vec3.dot, Vec3.cross, Vec3.mk.injEq] at hd' ⊢
  refine ⟨?_, ?_, ?_⟩ <;> (field_simp; ring)

theorem intersect_none_of_not_accepts {ti : TriangleIntersector K} {v0 v1 v2 : Vec3 K}
    (hA : ¬ Accepts ti v0 v1 v2) : intersect ti v0 v1 v2 = Except.ok none := by
  rw [intersect_eq, if_neg hA]

theorem accepts_meets {sqrt : K → K} {s e v0 v1 v2 : Vec3 K} {ti : TriangleIntersector K}
    (hc : construct sqrt s e = Except.ok ti) (hA : Accepts ti v0 v1 v2) :
    Meets s e v0 v1 v2 := by
  obtain ⟨hs, _, _, hil, hdir⟩ := construct_facts hc
  obtain ⟨h0, h1, h2, hsum⟩ := accepts_weights hA
  obtain ⟨hr0, hr1⟩ := accepts_range hA hil
  exact ⟨_, _, _, _, hr0, hr1, h0, h1, h2, hsum, hit_point (accepts_det_ne hA) hs hdir⟩

theorem detOf_swap (ti : TriangleIntersector K) (v0 v1 v2 : Vec3 K) :
    detOf ti v0 v2 v1 = -detOf ti v0 v1 v2 := by
  simp only [detOf, Vec3.dot, Vec3.cross, Vec3.sub]; ring

theorem uOf_swap (ti : TriangleIntersector K) (v0 v1 : Vec3 K) :
    uOf ti v0 v1 = -vOf ti v0 v1 := by
  simp only [uOf, vOf, Vec3.dot, Vec3.cross, Vec3.sub]; ring

theorem tOf_swap (ti : TriangleIntersector K) (v0 v1 v2 : Vec3 K) :
    tOf ti v0 v2 v1 = tOf ti v0 v1 v2 := by
  unfold tOf
  rw [detOf_swap ti v0 v1 v2, one_div, one_div, inv_neg]
  simp only [Vec3.dot, Vec3.cross, Vec3.sub]
  ring

theorem accepts_swap (ti : TriangleIntersector K) (v0 v1 v2 : Vec3 K) :
    Accepts ti v0 v2 v1 ↔ Accepts ti v0 v1 v2 := by
  have hu : uOf ti v0 v1 = -vOf ti v0 v1 := uOf_swap ti v0 v1
  have hv : vOf ti v0 v2 = -uOf ti v0 v2 := by rw [uOf_swap, neg_neg]
  unfold Accepts
  rw [detOf_swap ti v0 v1 v2, tOf_swap ti v0 v1 v2, hu, hv]
  constructor
  · rintro ⟨h | h, ht⟩
    · exact ⟨Or.inr ⟨by linarith [h.1], by linarith [h.2.2.2.1], by linarith [h.2.2.2.2.1],
        by linarith [h.2.1], by linarith [h.2.2.1], by linarith [h.2.2.2.2.2]⟩, ht⟩
    · exact ⟨Or.inl ⟨by linarith [h.1], by linarith [h.2.2.2.1], by linarith [h.2.2.2.2.1],
        by linarith [h.2.1], by linarith [h.2.2.1], by linarith [h.2.2.2.2.2]⟩, ht⟩
  · rintro ⟨h | h, ht⟩
    · exact ⟨Or.inr ⟨by linarith [h.1], by linarith [h.2.2.2.1], by linarith [h.2.2.2.2.1],
        by linarith [h.2.1], by linarith [h.2.2.1], by linarith [h.2.2.2.2.2]⟩, ht⟩
    · exact ⟨Or.inl ⟨by linarith [h.1], by linarith [h.2.2.2.1], by linarith [h.2.2.2.2.1],
        by linarith [h.2.1], by linarith [h.2.2.1], by linarith [h.2.2.2.2.2]⟩, ht⟩

theorem hitOf_swap (ti : TriangleIntersector K) (v0 v1 v2 : Vec3 K) :
    (hitOf ti v0 v2 v1).r = (hitOf ti v0 v1 v2).r ∧
      (hitOf ti v0 v2 v1).r0 = (hitOf ti v0 v1 v2).r0 ∧
      (hitOf ti v0 v2 v1).r1 = (hitOf ti v0 v1 v2).r2 ∧
      (hitOf ti v0 v2 v1).r2 = (hitOf ti v0 v1 v2).r1 := by
  have hu : uOf ti v0 v1 = -vOf ti v0 v1 := uOf_swap ti v0 v1
  have hv : vOf ti v0 v2 = -uOf ti v0 v2 := by rw [uOf_swap, neg_neg]
  unfold hitOf
  rw [detOf_swap ti v0 v1 v2, tOf_swap ti v0 v1 v2, hu, hv, one_div, one_div, inv_neg]
  dsimp only
  refine ⟨rfl, by ring, by ring, by ring⟩

theorem intersect_none_of_det {ti : TriangleIntersector K} {v0 v1 v2 : Vec3 K}
    (h1 : ¬ epsilon < detOf ti v0 v1 v2) (h2 : ¬ detOf ti v0 v1 v2 < -epsilon) :
    intersect ti v0 v1 v2 = Except.ok none := by
  refine intersect_none_of_not_accepts (fun hA => ?_)
  rcases hA.1 with h | h
  · exact h1 h.1
  · exact h2 h.1

theorem interior_locals {ti : TriangleIntersector K} {s e v0 v1 v2 : Vec3 K} {r w0 w1 w2 : K}
    (hs : ti.start = s) (hdir : ti._d = Vec3.scale (Vec3.sub e s) ti._inverse_length)
    (hsum : w0 + w1 + w2 = 1)
    (heq : Vec3.combo v0 v1 v2 w0 w1 w2 = segmentPoint s e r) :
    uOf ti v0 v2 = w1 * detOf ti v0 v1 v2 ∧ vOf ti v0 v1 = w2 * detOf ti v0 v1 v2 ∧
      Vec3.dot (Vec3.cross (Vec3.sub ti.start v0) (Vec3.sub v1 v0)) (Vec3.sub v2 v0) *
        ti._inverse_length = r * detOf ti v0 v1 v2 := by
  have hx := congrArg Vec3.x heq
  have hy := congrArg Vec3.y heq
  have hz := congrArg Vec3.z heq
  simp only [Vec3.combo, segmentPoint, Vec3.add, Vec3.scale, Vec3.sub] at hx hy hz
  have hw0 : w0 = 1 - w1 - w2 := by linarith
  subst hw0
  obtain ⟨Dx, hDx⟩ : ∃ Dx : K, e.x - s.x = Dx := ⟨_, rfl⟩
  obtain ⟨Dy, hDy⟩ : ∃ Dy : K, e.y - s.y = Dy := ⟨_, rfl⟩
  obtain ⟨Dz, hDz⟩ : ∃ Dz : K, e.z - s.z = Dz := ⟨_, rfl⟩
  rw [hDx] at hx
  rw [hDy] at hy
  rw [hDz] at hz
  have hsx : s.x = v0.x * (1 - w1 - w2) + v1.x * w1 + v2.x * w2 - Dx * r := by linarith
  have hsy : s.y = v0.y * (1 - w1 - w2) + v1.y * w1 + v2.y * w2 - Dy * r := by linarith
  have hsz : s.z = v0.z * (1 - w1 - w2) + v1.z * w1 + v2.z * w2 - Dz * r := by linarith
  simp only [uOf, vOf, detOf, hs, hdir, Vec3.dot, Vec3.cross, Vec3.sub, Vec3.scale, hDx, hDy, hDz]
  rw [hsx, hsy, hsz]
  refine ⟨by ring, by ring, by ring⟩

/-! ## Evaluation on vertical segments -/

theorem construct_vertical {sqrt : K → K} (hsqrt : IsSqrt sqrt) (x y z0 z1 : K)
    (hz : z1 - z0 = 2) :
    construct sqrt ⟨x, y, z0⟩ ⟨x, y, z1⟩ = Except.ok (vertical x y z0 z1) := by
  have h2 : sqrt (2 * 2) = 2 := IsSqrt.sqrt_mul_self hsqrt (by norm_num)
  have hlen : Vec3.length sqrt (Vec3.sub ⟨x, y, z1⟩ ⟨x, y, z0⟩) = 2 := by
    simp only [Vec3.length, Vec3.length2, Vec3.sub, hz, sub_self, mul_zero, zero_add]
    exact h2
  unfold construct
  dsimp only
  rw [hlen]
  simp [checkedDiv, checkedVecDiv, Vec3.scale, Vec3.sub, hz, vertical, bind, Except.bind, pure,
    Except.pure, Vec3.zero]

theorem intersect_vertical (x y z0 z1 : K) :
    intersect (vertical x y z0 z1) ⟨0, 0, 0⟩ ⟨1, 0, 0⟩ ⟨0, 1, 0⟩ =
      Except.ok (if 0 ≤ x ∧ 0 ≤ y ∧ x + y ≤ 1 ∧ z0 ≤ 0 ∧ -2 ≤ z0 then
        some { r := -z0 * (1 / 2), r0 := 1 - x - y, r1 := x, r2 := y, t := -z0 } else none) := by
  have he : (0 : K) < epsilon := epsilon_pos
  have he1 : (epsilon : K) < 1 := by
    unfold epsilon
    rw [div_lt_one (by positivity)]
    norm_num
  have hd : detOf (vertical x y z0 z1) ⟨0, 0, 0⟩ ⟨1, 0, 0⟩ ⟨0, 1, 0⟩ = -1 := by
    simp [detOf, vertical, Vec3.dot, Vec3.cross, Vec3.sub]
  have hu : uOf (vertical x y z0 z1) ⟨0, 0, 0⟩ ⟨0, 1, 0⟩ = -x := by
    simp [uOf, vertical, Vec3.dot, Vec3.cross, Vec3.sub]
  have hv : vOf (vertical x y z0 z1) ⟨0, 0, 0⟩ ⟨1, 0, 0⟩ = -y := by
    simp [vOf, vertical, Vec3.dot, Vec3.cross, Vec3.sub]
  have ht : tOf (vertical x y z0 z1) ⟨0, 0, 0⟩ ⟨1, 0, 0⟩ ⟨0, 1, 0⟩ = -z0 := by
    rw [tOf, hd]
    simp [vertical, Vec3.dot, Vec3.cross, Vec3.sub]
  have hh : hitOf (vertical x y z0 z1) ⟨0, 0, 0⟩ ⟨1, 0, 0⟩ ⟨0, 1, 0⟩ =
      { r := -z0 * (1 / 2), r0 := 1 - x - y, r1 := x, r2 := y, t := -z0 } := by
    rw [hitOf, hd, hu, hv, ht]
    simp only [vertical, Hit.mk.injEq]
    refine ⟨trivial, by ring, by ring, by ring, trivial⟩
  have hA : Accepts (vertical x y z0 z1) ⟨0, 0, 0⟩ ⟨1, 0, 0⟩ ⟨0, 1, 0⟩ ↔
      (0 ≤ x ∧ 0 ≤ y ∧ x + y ≤ 1 ∧ z0 ≤ 0 ∧ -2 ≤ z0) := by
    rw [Accepts, hd, hu, hv, ht]
    simp only [vertical]
    constructor
    · rintro ⟨h | h, h1, h2⟩
      · linarith [h.1]
      · exact ⟨by linarith [h.2.1], by linarith [h.2.2.2.1], by linarith [h.2.2.2.2.2],
          by linarith, by linarith⟩
    · rintro ⟨h1, h2, h3, h4, h5⟩
      exact ⟨Or.inr ⟨by linarith, by linarith, by linarith, by linarith, by linarith,
        by linarith⟩, by linarith, by linarith⟩
  rw [intersect_eq, hh]
  by_cases h : 0 ≤ x ∧ 0 ≤ y ∧ x + y ≤ 1 ∧ z0 ≤ 0 ∧ -2 ≤ z0
  · rw [if_pos h, if_pos (hA.mpr h)]
  · rw [if_neg h, if_neg (fun h' => h (hA.mp h'))]

theorem construct_probe_real (x y : ℝ) :
    construct Real.sqrt ⟨x, y, -1⟩ ⟨x, y, 1⟩ = Except.ok (vertical x y (-1) 1) :=
  construct_vertical isSqrt_real x y (-1) 1 (by norm_num)

theorem intersect_probe_hit :
    intersect (vertical (1 / 5 : K) (1 / 5) (-1) 1) ⟨0, 0, 0⟩ ⟨1, 0, 0⟩ ⟨0, 1, 0⟩ =
      Except.ok (some { r := 1 / 2, r0 := 3 / 5, r1 := 1 / 5, r2 := 1 / 5, t := 1 }) := by
  rw [intersect_vertical, if_pos (by norm_num)]
  norm_num

theorem intersect_probe_flipped :
    intersect (vertical (1 / 5 : K) (1 / 5) (-1) 1) ⟨0, 0, 0⟩ ⟨0, 1, 0⟩ ⟨1, 0, 0⟩ =
      Except.ok (some { r := 1 / 2, r0 := 3 / 5, r1 := 1 / 5, r2 := 1 / 5, t := 1 }) := by
  have he : (0 : K) < epsilon := epsilon_pos
  have he1 : (epsilon : K) < 1 := by
    unfold epsilon
    rw [div_lt_one (by positivity)]
    norm_num
  have hA : Accepts (vertical (1 / 5 : K) (1 / 5) (-1) 1) ⟨0, 0, 0⟩ ⟨0, 1, 0⟩ ⟨1, 0, 0⟩ := by
    simp only [Accepts, detOf, uOf, vOf, tOf, vertical, Vec3.dot, Vec3.cross, Vec3.sub]
    norm_num
    exact he1
  rw [intersect_eq, if_pos hA]
  simp only [hitOf, detOf, uOf, vOf, tOf, vertical, Vec3.dot, Vec3.cross, Vec3.sub]
  norm_num

/-! ## The triangle test -/

/-- C1: soundness of `TriangleIntersector::intersect`.  For the intersector built from
the segment `s`, `e`: whenever `intersect` returns true, the weights and the normalized
distance it computed satisfy `r0*v0 + r1*v1 + r2*v2 = s + r*(e - s)`; and when the
segment and the triangle have no common point, `intersect` returns false. -/
theorem intersect_sound (sqrt : K → K) (s e v0 v1 v2 : Vec3 K) (ti : TriangleIntersector K)
    (hc : construct sqrt s e = Except.ok ti) :
    (∀ h : Hit K, intersect ti v0 v1 v2 = Except.ok (some h) →
        Vec3.combo v0 v1 v2 h.r0 h.r1 h.r2 = segmentPoint s e h.r) ∧
      (¬ Meets s e v0 v1 v2 → intersect ti v0 v1 v2 = Except.ok none) := by
  constructor
  · intro h hi
    obtain ⟨hA, rfl⟩ := intersect_some hi
    obtain ⟨hs, _, _, _, hdir⟩ := construct_facts hc
    exact hit_point (accepts_det_ne hA) hs hdir
  · intro hno
    exact intersect_none_of_not_accepts (fun hA => hno (accepts_meets hc hA))

/-- Witness of C1 on the unit triangle: the segment from `(1/5, 1/5, -1)` to
`(1/5, 1/5, 1)` is accepted and the weights reproduce the point at `r = 1/2`. -/
theorem intersect_sound_witness :
    construct Real.sqrt ⟨1 / 5, 1 / 5, -1⟩ ⟨1 / 5, 1 / 5, 1⟩ =
        Except.ok (vertical (1 / 5 : ℝ) (1 / 5) (-1) 1) ∧
      intersect (vertical (1 / 5 : ℝ) (1 / 5) (-1) 1) ⟨0, 0, 0⟩ ⟨1, 0, 0⟩ ⟨0, 1, 0⟩ =
        Except.ok (some { r := 1 / 2, r0 := 3 / 5, r1 := 1 / 5, r2 := 1 / 5, t := 1 }) ∧
      Vec3.combo (⟨0, 0, 0⟩ : Vec3 ℝ) ⟨1, 0, 0⟩ ⟨0, 1, 0⟩ (3 / 5) (1 / 5) (1 / 5) =
        segmentPoint ⟨1 / 5, 1 / 5, -1⟩ ⟨1 / 5, 1 / 5, 1⟩ (1 / 2) :=
  ⟨construct_probe_real _ _, intersect_probe_hit,
    (intersect_sound Real.sqrt _ _ _ _ _ _ (construct_probe_real _ _)).1 _ intersect_probe_hit⟩

/-- C2: whenever `intersect` returns true, through the `det > epsilon` branch or the
`det < -epsilon` branch, the weights satisfy `r0 >= 0`, `r1 >= 0`, `r2 >= 0` and
`r0 + r1 + r2 = 1`. -/
theorem intersect_weights (ti : TriangleIntersector K) (v0 v1 v2 : Vec3 K) (h : Hit K)
    (hi : intersect ti v0 v1 v2 = Except.ok (some h)) :
    0 ≤ h.r0 ∧ 0 ≤ h.r1 ∧ 0 ≤ h.r2 ∧ h.r0 + h.r1 + h.r2 = 1 := by
  obtain ⟨hA, rfl⟩ := intersect_some hi
  exact accepts_weights hA

/-- Witness of C2 on the unit triangle, once through the `det < -epsilon` branch and once,
with the winding reversed, through the `det > epsilon` branch. -/
theorem intersect_weights_witness :
    (intersect (vertical (1 / 5 : ℝ) (1 / 5) (-1) 1) ⟨0, 0, 0⟩ ⟨1, 0, 0⟩ ⟨0, 1, 0⟩ =
        Except.ok (some { r := 1 / 2, r0 := 3 / 5, r1 := 1 / 5, r2 := 1 / 5, t := 1 }) ∧
      intersect (vertical (1 / 5 : ℝ) (1 / 5) (-1) 1) ⟨0, 0, 0⟩ ⟨0, 1, 0⟩ ⟨1, 0, 0⟩ =
        Except.ok (some { r := 1 / 2, r0 := 3 / 5, r1 := 1 / 5, r2 := 1 / 5, t := 1 })) ∧
      ((0 : ℝ) ≤ 3 / 5 ∧ (0 : ℝ) ≤ 1 / 5 ∧ (0 : ℝ) ≤ 1 / 5 ∧ (3 / 5 : ℝ) + 1 / 5 + 1 / 5 = 1) :=
  ⟨⟨intersect_probe_hit, intersect_probe_flipped⟩,
    (intersect_weights _ _ _ _ _ intersect_probe_hit).1,
    (intersect_weights _ _ _ _ _ intersect_probe_flipped).2⟩

/-- C4 (amended): double-sidedness, with the arithmetic read exactly.
`intersect(v0, v1, v2)` and `intersect(v0, v2, v1)` return the same boolean, and when both
return true they computed the same `r` and the same `r0`, with `r1` and `r2` exchanged. -/
theorem intersect_double_sided (ti : TriangleIntersector K) (v0 v1 v2 : Vec3 K) :
    returned ti v0 v2 v1 = returned ti v0 v1 v2 ∧
      ∀ h h' : Hit K, intersect ti v0 v1 v2 = Except.ok (some h) →
        intersect ti v0 v2 v1 = Except.ok (some h') →
        h'.r = h.r ∧ h'.r0 = h.r0 ∧ h'.r1 = h.r2 ∧ h'.r2 = h.r1 := by
  constructor
  · simp only [returned, intersect_eq]
    by_cases hA : Accepts ti v0 v1 v2
    · rw [if_pos hA, if_pos ((accepts_swap ti v0 v1 v2).mpr hA)]; rfl
    · rw [if_neg hA, if_neg (fun h => hA ((accepts_swap ti v0 v1 v2).mp h))]
  · intro h h' hi hi'
    obtain ⟨_, rfl⟩ := intersect_some hi
    obtain ⟨_, rfl⟩ := intersect_some hi'
    exact hitOf_swap ti v0 v1 v2

/-- Witness of the amended C4 on the unit triangle: the segment `(1/5, 2/5, -1) -> (1/5, 2/5, 1)` is
accepted for both windings, with `r = 1/2`, `r0 = 2/5` and the weights `1/5` and `2/5`
exchanged. -/
theorem intersect_double_sided_witness :
    returned (vertical (1 / 5 : ℝ) (2 / 5) (-1) 1) ⟨0, 0, 0⟩ ⟨0, 1, 0⟩ ⟨1, 0, 0⟩ =
        returned (vertical (1 / 5 : ℝ) (2 / 5) (-1) 1) ⟨0, 0, 0⟩ ⟨1, 0, 0⟩ ⟨0, 1, 0⟩ ∧
      intersect (vertical (1 / 5 : ℝ) (2 / 5) (-1) 1) ⟨0, 0, 0⟩ ⟨1, 0, 0⟩ ⟨0, 1, 0⟩ =
        Except.ok (some { r := 1 / 2, r0 := 2 / 5, r1 := 1 / 5, r2 := 2 / 5, t := 1 }) ∧
      intersect (vertical (1 / 5 : ℝ) (2 / 5) (-1) 1) ⟨0, 0, 0⟩ ⟨0, 1, 0⟩ ⟨1, 0, 0⟩ =
        Except.ok (some { r := 1 / 2, r0 := 2 / 5, r1 := 2 / 5, r2 := 1 / 5, t := 1 }) := by
  have he1 : (epsilon : ℝ) < 1 := by
    unfold epsilon
    norm_num
  refine ⟨(intersect_double_sided _ _ _ _).1, ?_, ?_⟩
  · rw [intersect_vertical, if_pos (by norm_num)]
    norm_num
  · have hA : Accepts (vertical (1 / 5 : ℝ) (2 / 5) (-1) 1) ⟨0, 0, 0⟩ ⟨0, 1, 0⟩ ⟨1, 0, 0⟩ := by
      simp only [Accepts, detOf, uOf, vOf, tOf, vertical, Vec3.dot, Vec3.cross, Vec3.sub]
      norm_num
      exact he1
    rw [intersect_eq, if_pos hA]
    simp only [hitOf, detOf, uOf, vOf, tOf, vertical, Vec3.dot, Vec3.cross, Vec3.sub]
    norm_num

/-- C5 (amended): with the arithmetic read exactly, for the intersector built from the
segment `s`, `e`, a segment that
passes through an interior point of the triangle and whose determinant
`det = (d x E2) . E1` satisfies `|det| > epsilon` makes `intersect` return true, with
weights each in the open interval `(0, 1)` and summing to 1. -/
theorem intersect_interior (sqrt : K → K) (hsqrt : IsSqrt sqrt) (s e v0 v1 v2 : Vec3 K)
    (ti : TriangleIntersector K) (hc : construct sqrt s e = Except.ok ti)
    (hp : PassesInterior s e v0 v1 v2)
    (hdet : epsilon < |Vec3.dot (Vec3.cross ti._d (Vec3.sub v2 v0)) (Vec3.sub v1 v0)|) :
    ∃ h : Hit K, intersect ti v0 v1 v2 = Except.ok (some h) ∧
      0 < h.r0 ∧ h.r0 < 1 ∧ 0 < h.r1 ∧ h.r1 < 1 ∧ 0 < h.r2 ∧ h.r2 < 1 ∧
      h.r0 + h.r1 + h.r2 = 1 := by
  have he : (0 : K) < epsilon := epsilon_pos
  obtain ⟨hs, _, hlen, hil, hdir⟩ := construct_facts hc
  obtain ⟨r, w0, w1, w2, hr0, hr1, hw0, hw1, hw2, hsum, heq⟩ := hp
  change epsilon < |detOf ti v0 v1 v2| at hdet
  have hd : detOf ti v0 v1 v2 ≠ 0 := by
    intro h
    rw [h, abs_zero] at hdet
    exact absurd hdet (not_lt.mpr he.le)
  have hilne : ti._inverse_length ≠ 0 := by
    intro h
    apply hd
    simp [detOf, hdir, h, Vec3.scale, Vec3.cross, Vec3.dot]
  have hlne : ti._length ≠ 0 := by
    intro h
    apply hilne
    rw [hil, h]
    simp
  have hlpos : 0 < ti._length := by
    refine lt_of_le_of_ne ?_ (Ne.symm hlne)
    rw [hlen]
    exact (hsqrt _ (length2_nonneg _)).1
  obtain ⟨hu, hv, ht⟩ := interior_locals hs hdir hsum heq
  have hil' : ti._inverse_length = 1 / ti._length := by rw [hil, if_pos hlne]
  have htOf : tOf ti v0 v1 v2 = r * ti._length := by
    unfold tOf
    rw [hil'] at ht
    field_simp at ht ⊢
    linarith
  have hA : Accepts ti v0 v1 v2 := by
    refine ⟨?_, ?_, ?_⟩
    · rw [hu, hv]
      generalize detOf ti v0 v1 v2 = D at hdet
      rcases lt_abs.mp hdet with h | h
      · left
        have hpos : 0 ≤ D := le_of_lt (lt_trans he h)
        have p1 : 0 ≤ w1 * D := mul_nonneg hw1.le hpos
        have p2 : 0 ≤ w2 * D := mul_nonneg hw2.le hpos
        have p3 : 0 ≤ w0 * D := mul_nonneg hw0.le hpos
        have p4 : w0 * D = D - w1 * D - w2 * D := by
          have hw : w0 = 1 - w1 - w2 := by linarith
          rw [hw]; ring
        exact ⟨h, p1, by linarith, p2, by linarith, by linarith⟩
      · right
        have hneg : 0 ≤ -D := by linarith
        have p1 : 0 ≤ w1 * -D := mul_nonneg hw1.le hneg
        have p2 : 0 ≤ w2 * -D := mul_nonneg hw2.le hneg
        have p3 : 0 ≤ w0 * -D := mul_nonneg hw0.le hneg
        have p4 : w0 * -D = -D + w1 * D + w2 * D := by
          have hw : w0 = 1 - w1 - w2 := by linarith
          rw [hw]; ring
        rw [mul_neg] at p1 p2
        exact ⟨by linarith, by linarith, by linarith, by linarith, by linarith, by linarith⟩
    · rw [htOf]; exact mul_nonneg hr0 hlpos.le
    · rw [htOf]; exact mul_le_of_le_one_left hlpos.le hr1
  refine ⟨hitOf ti v0 v1 v2, by rw [intersect_eq, if_pos hA], ?_⟩
  have h1 : (hitOf ti v0 v1 v2).r1 = w1 := by
    simp only [hitOf]; rw [hu]; field_simp
  have h2 : (hitOf ti v0 v1 v2).r2 = w2 := by
    simp only [hitOf]; rw [hv]; field_simp
  have h0 : (hitOf ti v0 v1 v2).r0 = w0 := by
    have : (hitOf ti v0 v1 v2).r0 = 1 - (hitOf ti v0 v1 v2).r1 - (hitOf ti v0 v1 v2).r2 := rfl
    rw [this, h1, h2]; linarith
  rw [h0, h1, h2]
  exact ⟨hw0, by linarith, hw1, by linarith, hw2, by linarith, hsum⟩

/-- Witness of the amended C5 on the unit triangle: the segment from `(1/5, 1/5, -1)` to
`(1/5, 1/5, 1)` passes through the interior point with weights `(3/5, 1/5, 1/5)`, its
determinant is `-1`, and it is accepted. -/
theorem intersect_interior_witness :
    construct Real.sqrt ⟨1 / 5, 1 / 5, -1⟩ ⟨1 / 5, 1 / 5, 1⟩ =
        Except.ok (vertical (1 / 5 : ℝ) (1 / 5) (-1) 1) ∧
      PassesInterior (⟨1 / 5, 1 / 5, -1⟩ : Vec3 ℝ) ⟨1 / 5, 1 / 5, 1⟩
        ⟨0, 0, 0⟩ ⟨1, 0, 0⟩ ⟨0, 1, 0⟩ ∧
      (epsilon : ℝ) < |Vec3.dot (Vec3.cross (vertical (1 / 5 : ℝ) (1 / 5) (-1) 1)._d
        (Vec3.sub ⟨0, 1, 0⟩ ⟨0, 0, 0⟩)) (Vec3.sub ⟨1, 0, 0⟩ ⟨0, 0, 0⟩)| ∧
      ∃ h : Hit ℝ, intersect (vertical (1 / 5 : ℝ) (1 / 5) (-1) 1)
          ⟨0, 0, 0⟩ ⟨1, 0, 0⟩ ⟨0, 1, 0⟩ = Except.ok (some h) ∧
        0 < h.r0 ∧ h.r0 < 1 ∧ 0 < h.r1 ∧ h.r1 < 1 ∧ 0 < h.r2 ∧ h.r2 < 1 ∧
        h.r0 + h.r1 + h.r2 = 1 := by
  have hp : PassesInterior (⟨1 / 5, 1 / 5, -1⟩ : Vec3 ℝ) ⟨1 / 5, 1 / 5, 1⟩
      ⟨0, 0, 0⟩ ⟨1, 0, 0⟩ ⟨0, 1, 0⟩ := by
    refine ⟨1 / 2, 3 / 5, 1 / 5, 1 / 5, by norm_num, by norm_num, by norm_num, by norm_num,
      by norm_num, by norm_num, ?_⟩
    simp only [Vec3.combo, segmentPoint, Vec3.add, Vec3.scale, Vec3.sub]
    norm_num
  have hdet : (epsilon : ℝ) < |Vec3.dot (Vec3.cross (vertical (1 / 5 : ℝ) (1 / 5) (-1) 1)._d
      (Vec3.sub ⟨0, 1, 0⟩ ⟨0, 0, 0⟩)) (Vec3.sub ⟨1, 0, 0⟩ ⟨0, 0, 0⟩)| := by
    simp only [vertical, Vec3.dot, Vec3.cross, Vec3.sub, epsilon]
    norm_num
  exact ⟨construct_probe_real _ _, hp, hdet,
    intersect_interior Real.sqrt isSqrt_real _ _ _ _ _ _ (construct_probe_real _ _) hp hdet⟩

/-- Counterexample to C5 as stated.  With exact arithmetic, a segment through an interior
point of a triangle of side `1/100000` (determinant `-1/10^10`), and a segment lying in the
plane of a triangle and crossing its interior (determinant `0`), are both rejected.  In
`float`, the segment `(-3,-1,0) -> (0,-2,0)`, which ends at the interior point of the
triangle `(0,-2,-1)`, `(0,-4,1)`, `(0,2,4)` with weights `(2/3, 2/9, 1/9)`, is rejected
although its determinant is near `17`: the computed `t` exceeds the computed length. -/
theorem intersect_interior_counterexample :
    (construct Real.sqrt ⟨1 / 400000, 1 / 400000, -1⟩ ⟨1 / 400000, 1 / 400000, 1⟩ =
        Except.ok (vertical (1 / 400000 : ℝ) (1 / 400000) (-1) 1) ∧
      PassesInterior (⟨1 / 400000, 1 / 400000, -1⟩ : Vec3 ℝ) ⟨1 / 400000, 1 / 400000, 1⟩
        ⟨0, 0, 0⟩ ⟨1 / 100000, 0, 0⟩ ⟨0, 1 / 100000, 0⟩ ∧
      intersect (vertical (1 / 400000 : ℝ) (1 / 400000) (-1) 1)
        ⟨0, 0, 0⟩ ⟨1 / 100000, 0, 0⟩ ⟨0, 1 / 100000, 0⟩ = Except.ok none) ∧
    (construct Real.sqrt ⟨0, 0, -1⟩ ⟨0, 0, 1⟩ = Except.ok (vertical (0 : ℝ) 0 (-1) 1) ∧
      PassesInterior (⟨0, 0, -1⟩ : Vec3 ℝ) ⟨0, 0, 1⟩ ⟨-1, 0, -1⟩ ⟨1, 0, -1⟩ ⟨0, 0, 1⟩ ∧
      intersect (vertical (0 : ℝ) 0 (-1) 1) ⟨-1, 0, -1⟩ ⟨1, 0, -1⟩ ⟨0, 0, 1⟩ =
        Except.ok none) ∧
    (PassesInterior (⟨-3, -1, 0⟩ : Vec3 ℚ) ⟨0, -2, 0⟩ ⟨0, -2, -1⟩ ⟨0, -4, 1⟩ ⟨0, 2, 4⟩ ∧
      (constructRounded ⟨-3, -1, 0⟩ ⟨0, -2, 0⟩ >>= fun ti =>
        intersectRounded ti ⟨0, -2, -1⟩ ⟨0, -4, 1⟩ ⟨0, 2, 4⟩) = Except.ok none) := by
  refine ⟨⟨construct_probe_real _ _, ?_, ?_⟩, ⟨construct_probe_real _ _, ?_, ?_⟩,
    ⟨⟨1, 2 / 3, 2 / 9, 1 / 9, by norm_num, by norm_num, by norm_num, by norm_num,
      by norm_num, by norm_num, by decide!⟩, eq_ok_of_toOption (by decide!)⟩⟩
  · refine ⟨1 / 2, 1 / 2, 1 / 4, 1 / 4, by norm_num, by norm_num, by norm_num, by norm_num,
      by norm_num, by norm_num, ?_⟩
    simp only [Vec3.combo, segmentPoint, Vec3.add, Vec3.scale, Vec3.sub]
    norm_num
  · apply intersect_none_of_det <;>
      simp only [detOf, vertical, Vec3.dot, Vec3.cross, Vec3.sub, epsilon] <;> norm_num
  · refine ⟨1 / 2, 1 / 4, 1 / 4, 1 / 2, by norm_num, by norm_num, by norm_num, by norm_num,
      by norm_num, by norm_num, ?_⟩
    simp only [Vec3.combo, segmentPoint, Vec3.add, Vec3.scale, Vec3.sub]
    norm_num
  · apply intersect_none_of_det <;>
      simp only [detOf, vertical, Vec3.dot, Vec3.cross, Vec3.sub, epsilon] <;> norm_num

/-- C7: degenerate segment.  The intersector constructed with `start = end = p` is built
without a division by zero, has `inverseLength = 0` and direction `(0,0,0)`, and its
`intersect` returns false for every triangle, again without a division by zero. -/
theorem intersect_degenerate_segment (sqrt : K → K) (hs0 : sqrt 0 = 0) (p v0 v1 v2 : Vec3 K) :
    ∃ ti : TriangleIntersector K, construct sqrt p p = Except.ok ti ∧
      ti._inverse_length = 0 ∧ ti._d = Vec3.zero ∧
      intersect ti v0 v1 v2 = Except.ok none := by
  obtain ⟨ti, hc, _, _, hlen, hil, hdir⟩ := construct_total sqrt p p
  have hl0 : Vec3.length sqrt (Vec3.sub p p) = 0 := by
    simp only [Vec3.length, Vec3.length2, Vec3.sub, sub_self, mul_zero, add_zero]
    exact hs0
  have hil0 : ti._inverse_length = 0 := by rw [hil, hl0]; simp
  have hd0 : ti._d = Vec3.zero := by
    rw [hdir, hil0]
    simp [Vec3.scale, Vec3.zero]
  have hdet : detOf ti v0 v1 v2 = 0 := by
    simp [detOf, hd0, Vec3.zero, Vec3.cross, Vec3.dot]
  have he : (0 : K) < epsilon := epsilon_pos
  refine ⟨ti, hc, hil0, hd0, intersect_none_of_det ?_ ?_⟩
  · rw [hdet]; exact not_lt.mpr he.le
  · rw [hdet]; intro h; linarith

/-- Witness of C7 at the point `(1, 2, 3)` and the unit triangle, over the reals. -/
theorem intersect_degenerate_segment_witness :
    Real.sqrt 0 = 0 ∧
      ∃ ti : TriangleIntersector ℝ, construct Real.sqrt ⟨1, 2, 3⟩ ⟨1, 2, 3⟩ = Except.ok ti ∧
        ti._inverse_length = 0 ∧ ti._d = Vec3.zero ∧
        intersect ti ⟨0, 0, 0⟩ ⟨1, 0, 0⟩ ⟨0, 1, 0⟩ = Except.ok none :=
  ⟨Real.sqrt_zero, intersect_degenerate_segment Real.sqrt Real.sqrt_zero _ _ _ _⟩

end TriangleIntersector

/-! ## The sphere test -/

namespace LineSegmentIntersector

variable {K : Type} [LinearOrderedField K] {R : Type}

theorem excess_eq (self : LineSegmentIntersector K R) (bs : Sphere K) (s : K) :
    excess self bs s = aOf self * s * s + bOf self bs * s + cOf self bs := by
  simp only [excess, aOf, bOf, cOf, segmentPoint, Vec3.length2, Vec3.dot, Vec3.sub, Vec3.add,
    Vec3.scale]
  ring

theorem aOf_pos {self : LineSegmentIntersector K R} (hne : self.start ≠ self.end_) :
    0 < aOf self := by
  have h0 : 0 ≤ aOf self := length2_nonneg _
  refine lt_of_le_of_ne h0 (fun h => hne ?_)
  have hx := mul_self_nonneg (self.end_.x - self.start.x)
  have hy := mul_self_nonneg (self.end_.y - self.start.y)
  have hz := mul_self_nonneg (self.end_.z - self.start.z)
  simp only [aOf, Vec3.length2, Vec3.sub] at h
  have ex : (self.end_.x - self.start.x) * (self.end_.x - self.start.x) = 0 := by linarith
  have ey : (self.end_.y - self.start.y) * (self.end_.y - self.start.y) = 0 := by linarith
  have ez : (self.end_.z - self.start.z) * (self.end_.z - self.start.z) = 0 := by linarith
  have ex' := sub_eq_zero.mp (mul_self_eq_zero.mp ex)
  have ey' := sub_eq_zero.mp (mul_self_eq_zero.mp ey)
  have ez' := sub_eq_zero.mp (mul_self_eq_zero.mp ez)
  cases hs : self.start
  cases he : self.end_
  simp only [hs, he] at ex' ey' ez'
  rw [ex', ey', ez']

/-- The closed form of `intersects` for a valid sphere, a start point not strictly inside
it and a segment of non-zero squared length. -/
theorem intersects_eq (sqrt : K → K) (self : LineSegmentIntersector K R) (bs : Sphere K)
    (hv : bs.valid) (hc : ¬ cOf self bs < 0) (ha : aOf self ≠ 0) :
    intersects sqrt self bs =
      Except.ok (decide (¬ (bOf self bs * bOf self bs - 4 * aOf self * cOf self bs < 0) ∧
        ¬ ((-bOf self bs - sqrt (bOf self bs * bOf self bs - 4 * aOf self * cOf self bs)) *
              (1 / (2 * aOf self)) ≤ 0 ∧
            (-bOf self bs + sqrt (bOf self bs * bOf self bs - 4 * aOf self * cOf self bs)) *
              (1 / (2 * aOf self)) ≤ 0) ∧
        ¬ ((-bOf self bs - sqrt (bOf self bs * bOf self bs - 4 * aOf self * cOf self bs)) *
              (1 / (2 * aOf self)) ≥ 1 ∧
            (-bOf self bs + sqrt (bOf self bs * bOf self bs - 4 * aOf self * cOf self bs)) *
              (1 / (2 * aOf self)) ≥ 1))) := by
  have key : ∀ (valid : Prop) [Decidable valid] (a b c : K), valid → ¬ c < 0 → a ≠ 0 →
      (if ¬ valid then (pure false : Except Fault Bool) else
        if c < 0 then pure true else
        if b * b - 4 * a * c < 0 then pure false else do
        let div ← checkedDiv 1 (2 * a)
        if (-b - sqrt (b * b - 4 * a * c)) * div ≤ 0 ∧
            (-b + sqrt (b * b - 4 * a * c)) * div ≤ 0 then pure false else
        if (-b - sqrt (b * b - 4 * a * c)) * div ≥ 1 ∧
            (-b + sqrt (b * b - 4 * a * c)) * div ≥ 1 then pure false else
        pure true) =
      Except.ok (decide (¬ (b * b - 4 * a * c < 0) ∧
        ¬ ((-b - sqrt (b * b - 4 * a * c)) * (1 / (2 * a)) ≤ 0 ∧
            (-b + sqrt (b * b - 4 * a * c)) * (1 / (2 * a)) ≤ 0) ∧
        ¬ ((-b - sqrt (b * b - 4 * a * c)) * (1 / (2 * a)) ≥ 1 ∧
            (-b + sqrt (b * b - 4 * a * c)) * (1 / (2 * a)) ≥ 1))) := by
    intro valid _ a b c hv hc ha
    have h2a : 2 * a ≠ 0 := mul_ne_zero two_ne_zero ha
    rw [if_neg (not_not.mpr hv), if_neg hc, checkedDiv_of_ne _ h2a]
    simp only [bind, Except.bind, pure, Except.pure]
    by_cases h1 : b * b - 4 * a * c < 0
    · rw [if_pos h1, decide_eq_false (fun h => h.1 h1)]
    · rw [if_neg h1]
      by_cases h2 : (-b - sqrt (b * b - 4 * a * c)) * (1 / (2 * a)) ≤ 0 ∧
          (-b + sqrt (b * b - 4 * a * c)) * (1 / (2 * a)) ≤ 0
      · rw [if_pos h2, decide_eq_false (fun h => h.2.1 h2)]
      · rw [if_neg h2]
        by_cases h3 : (-b - sqrt (b * b - 4 * a * c)) * (1 / (2 * a)) ≥ 1 ∧
            (-b + sqrt (b * b - 4 * a * c)) * (1 / (2 * a)) ≥ 1
        · rw [if_pos h3, decide_eq_false (fun h => h.2.2 h3)]
        · rw [if_neg h3, decide_eq_true ⟨h1, h2, h3⟩]
  exact key bs.valid (aOf self) (bOf self bs) (cOf self bs) hv hc ha

theorem quad_factor (a b c sq s : K) (ha : a ≠ 0) (hsq : sq * sq = b * b - 4 * a * c) :
    a * s * s + b * s + c =
      a * (s - (-b - sq) * (1 / (2 * a))) * (s - (-b + sq) * (1 / (2 * a))) := by
  have hc : c = (b * b - sq * sq) / (4 * a) := by
    field_simp
    linarith
  rw [hc]
  field_simp
  ring

theorem quad_pos_of_disc_neg (a b c s : K) (ha : 0 ≤ a) (hD : b * b - 4 * a * c < 0) :
    0 < a * s * s + b * s + c := by
  have hsq := mul_self_nonneg (2 * a * s + b)
  have hapos : 0 < a := by
    refine lt_of_le_of_ne ha (fun h => ?_)
    rw [← h] at hD
    have := mul_self_nonneg b
    linarith
  have h4 : 0 < 4 * a * (a * s * s + b * s + c) := by
    have e : 4 * a * (a * s * s + b * s + c) =
        (2 * a * s + b) * (2 * a * s + b) - (b * b - 4 * a * c) := by ring
    rw [e]
    linarith
  have h4a : 0 < 4 * a := by linarith
  exact (mul_pos_iff_of_pos_left h4a).mp h4

theorem roots_le (a b sq : K) (ha : 0 < a) (hsq0 : 0 ≤ sq) :
    (-b - sq) * (1 / (2 * a)) ≤ (-b + sq) * (1 / (2 * a)) := by
  have h : 0 ≤ 1 / (2 * a) := by positivity
  exact mul_le_mul_of_nonneg_right (by linarith) h

theorem quad_nonneg_of_reject {sqrt : K → K} (hsqrt : IsSqrt sqrt) (a b c : K) (ha : 0 < a)
    (hP : ¬ (¬ (b * b - 4 * a * c < 0) ∧
        ¬ ((-b - sqrt (b * b - 4 * a * c)) * (1 / (2 * a)) ≤ 0 ∧
            (-b + sqrt (b * b - 4 * a * c)) * (1 / (2 * a)) ≤ 0) ∧
        ¬ ((-b - sqrt (b * b - 4 * a * c)) * (1 / (2 * a)) ≥ 1 ∧
            (-b + sqrt (b * b - 4 * a * c)) * (1 / (2 * a)) ≥ 1)))
    (s : K) (hs0 : 0 ≤ s) (hs1 : s ≤ 1) : 0 ≤ a * s * s + b * s + c := by
  by_cases hD : b * b - 4 * a * c < 0
  · exact le_of_lt (quad_pos_of_disc_neg a b c s ha.le hD)
  · obtain ⟨_, hsq⟩ := hsqrt _ (not_lt.mp hD)
    rw [quad_factor a b c _ s (ne_of_gt ha) hsq, mul_assoc]
    refine mul_nonneg ha.le ?_
    by_cases h2 : (-b - sqrt (b * b - 4 * a * c)) * (1 / (2 * a)) ≤ 0 ∧
        (-b + sqrt (b * b - 4 * a * c)) * (1 / (2 * a)) ≤ 0
    · exact mul_nonneg (by linarith [h2.1]) (by linarith [h2.2])
    · by_cases h3 : (-b - sqrt (b * b - 4 * a * c)) * (1 / (2 * a)) ≥ 1 ∧
          (-b + sqrt (b * b - 4 * a * c)) * (1 / (2 * a)) ≥ 1
      · exact mul_nonneg_of_nonpos_of_nonpos (by linarith [h3.1]) (by linarith [h3.2])
      · exact absurd ⟨hD, h2, h3⟩ hP

theorem quad_nonpos_of_accept {sqrt : K → K} (hsqrt : IsSqrt sqrt) (a b c : K) (ha : 0 < a)
    (hD : ¬ (b * b - 4 * a * c < 0))
    (h2 : ¬ ((-b - sqrt (b * b - 4 * a * c)) * (1 / (2 * a)) ≤ 0 ∧
            (-b + sqrt (b * b - 4 * a * c)) * (1 / (2 * a)) ≤ 0))
    (h3 : ¬ ((-b - sqrt (b * b - 4 * a * c)) * (1 / (2 * a)) ≥ 1 ∧
            (-b + sqrt (b * b - 4 * a * c)) * (1 / (2 * a)) ≥ 1)) :
    ∃ s : K, 0 ≤ s ∧ s ≤ 1 ∧ a * s * s + b * s + c ≤ 0 := by
  obtain ⟨hsq0, hsq⟩ := hsqrt _ (not_lt.mp hD)
  have hle := roots_le a b _ ha hsq0
  generalize hr1 : (-b - sqrt (b * b - 4 * a * c)) * (1 / (2 * a)) = r1 at h2 h3 hle
  generalize hr2 : (-b + sqrt (b * b - 4 * a * c)) * (1 / (2 * a)) = r2 at h2 h3 hle
  have hr2pos : 0 ≤ r2 := by
    by_contra h
    exact h2 ⟨by linarith [not_le.mp h], le_of_lt (not_le.mp h)⟩
  have hr1lt : r1 ≤ 1 := by
    by_contra h
    exact h3 ⟨le_of_lt (not_le.mp h), by linarith [not_le.mp h]⟩
  refine ⟨max r1 0, le_max_right _ _, max_le hr1lt zero_le_one, ?_⟩
  rw [quad_factor a b c _ _ (ne_of_gt ha) hsq, mul_assoc, hr1, hr2]
  exact mul_nonpos_of_nonneg_of_nonpos ha.le
    (mul_nonpos_of_nonneg_of_nonpos (sub_nonneg.mpr (le_max_left _ _))
      (sub_nonpos.mpr (max_le hle hr2pos)))

theorem intersects_invalid (sqrt : K → K) (self : LineSegmentIntersector K R) (bs : Sphere K)
    (hv : ¬ bs.valid) : intersects sqrt self bs = Except.ok false := by
  unfold intersects
  rw [if_pos hv]
  rfl

theorem intersects_inside (sqrt : K → K) (self : LineSegmentIntersector K R) (bs : Sphere K)
    (hv : bs.valid) (hc : cOf self bs < 0) : intersects sqrt self bs = Except.ok true := by
  unfold intersects
  dsimp only
  change (if ¬ bs.valid then _ else if cOf self bs < 0 then _ else _) = _
  rw [if_neg (not_not.mpr hv), if_pos hc]
  rfl

theorem excess_zero (self : LineSegmentIntersector K R) (bs : Sphere K) :
    excess self bs 0 = cOf self bs := by
  rw [excess_eq]; ring

theorem excess_degenerate (self : LineSegmentIntersector K R) (bs : Sphere K) (s : K)
    (h : self.start = self.end_) : excess self bs s = cOf self bs := by
  rw [excess_eq]
  have ha : aOf self = 0 := by
    simp [aOf, h, Vec3.sub, Vec3.length2]
  have hb : bOf self bs = 0 := by
    simp [bOf, h, Vec3.sub, Vec3.dot]
  rw [ha, hb]; ring

theorem intersects_far_real :
    intersects Real.sqrt (⟨⟨0, 0, 0⟩, ⟨0, 1, 0⟩, []⟩ : LineSegmentIntersector ℝ Unit)
      ⟨⟨10, 0, 0⟩, 1⟩ = Except.ok false := by
  have hv : (⟨⟨10, 0, 0⟩, 1⟩ : Sphere ℝ).valid := by
    simp [Sphere.valid]
  have hcv : cOf (⟨⟨0, 0, 0⟩, ⟨0, 1, 0⟩, []⟩ : LineSegmentIntersector ℝ Unit)
      ⟨⟨10, 0, 0⟩, 1⟩ = 99 := by
    simp only [cOf, Vec3.length2, Vec3.sub]; norm_num
  have hav : aOf (⟨⟨0, 0, 0⟩, ⟨0, 1, 0⟩, []⟩ : LineSegmentIntersector ℝ Unit) = 1 := by
    simp only [aOf, Vec3.length2, Vec3.sub]; norm_num
  have hbv : bOf (⟨⟨0, 0, 0⟩, ⟨0, 1, 0⟩, []⟩ : LineSegmentIntersector ℝ Unit)
      ⟨⟨10, 0, 0⟩, 1⟩ = 0 := by
    simp only [bOf, Vec3.dot, Vec3.sub]; norm_num
  rw [intersects_eq _ _ _ hv (by rw [hcv]; norm_num) (by rw [hav]; norm_num), hav, hbv, hcv]
  congr 1
  rw [decide_eq_false_iff_not]
  intro h
  exact h.1 (by norm_num)

theorem intersects_through_real :
    intersects Real.sqrt (⟨⟨0, 0, 0⟩, ⟨4, 0, 0⟩, []⟩ : LineSegmentIntersector ℝ Unit)
      ⟨⟨2, 0, 0⟩, 1⟩ = Except.ok true := by
  have hv : (⟨⟨2, 0, 0⟩, 1⟩ : Sphere ℝ).valid := by
    simp [Sphere.valid]
  have hcv : cOf (⟨⟨0, 0, 0⟩, ⟨4, 0, 0⟩, []⟩ : LineSegmentIntersector ℝ Unit)
      ⟨⟨2, 0, 0⟩, 1⟩ = 3 := by
    simp only [cOf, Vec3.length2, Vec3.sub]; norm_num
  have hav : aOf (⟨⟨0, 0, 0⟩, ⟨4, 0, 0⟩, []⟩ : LineSegmentIntersector ℝ Unit) = 16 := by
    simp only [aOf, Vec3.length2, Vec3.sub]; norm_num
  have hbv : bOf (⟨⟨0, 0, 0⟩, ⟨4, 0, 0⟩, []⟩ : LineSegmentIntersector ℝ Unit)
      ⟨⟨2, 0, 0⟩, 1⟩ = -16 := by
    simp only [bOf, Vec3.dot, Vec3.sub]; norm_num
  have hD : (-16 : ℝ) * -16 - 4 * 16 * 3 = 8 * 8 := by norm_num
  rw [intersects_eq _ _ _ hv (by rw [hcv]; norm_num) (by rw [hav]; norm_num), hav, hbv, hcv,
    hD, IsSqrt.sqrt_mul_self isSqrt_real
      (by norm_num : (0 : ℝ) ≤ 8)]
  congr 1
  rw [decide_eq_true_iff]
  norm_num

/-- C9: soundness of the sphere test.  For a segment with `start != end`: when
`intersects` returns true, some point `start + s*(end - start)` with `0 <= s <= 1` lies
inside or on the sphere; and a segment with no such point makes `intersects` return
false. -/
theorem intersects_sound (sqrt : K → K) (hsqrt : IsSqrt sqrt)
    (self : LineSegmentIntersector K R) (bs : Sphere K) (hne : self.start ≠ self.end_) :
    (intersects sqrt self bs = Except.ok true →
        ∃ s : K, 0 ≤ s ∧ s ≤ 1 ∧
          Vec3.length2 (Vec3.sub (segmentPoint self.start self.end_ s) bs.center) ≤
            bs.radius * bs.radius) ∧
      ((∀ s : K, 0 ≤ s → s ≤ 1 →
          bs.radius * bs.radius <
            Vec3.length2 (Vec3.sub (segmentPoint self.start self.end_ s) bs.center)) →
        intersects sqrt self bs = Except.ok false) := by
  have ha : 0 < aOf self := aOf_pos hne
  have hex : ∀ s : K, excess self bs s =
      Vec3.length2 (Vec3.sub (segmentPoint self.start self.end_ s) bs.center) -
        bs.radius * bs.radius := fun _ => rfl
  have part1 : intersects sqrt self bs = Except.ok true →
      ∃ s : K, 0 ≤ s ∧ s ≤ 1 ∧ excess self bs s ≤ 0 := by
    intro h
    by_cases hv : bs.valid
    · by_cases hc : cOf self bs < 0
      · exact ⟨0, le_refl _, zero_le_one, by rw [excess_zero]; exact hc.le⟩
      · rw [intersects_eq sqrt self bs hv hc (ne_of_gt ha)] at h
        have hP := of_decide_eq_true (Except.ok.inj h)
        obtain ⟨s, hs0, hs1, hq⟩ := quad_nonpos_of_accept hsqrt _ _ _ ha hP.1 hP.2.1 hP.2.2
        exact ⟨s, hs0, hs1, by rw [excess_eq]; exact hq⟩
    · rw [intersects_invalid sqrt self bs hv] at h
      cases h
  constructor
  · intro h
    obtain ⟨s, hs0, hs1, hq⟩ := part1 h
    rw [hex] at hq
    exact ⟨s, hs0, hs1, by linarith⟩
  · intro hall
    by_cases hv : bs.valid
    · by_cases hc : cOf self bs < 0
      · have h0 := hall 0 (le_refl _) zero_le_one
        have := excess_zero self bs
        rw [hex] at this
        linarith
      · by_cases hP : intersects sqrt self bs = Except.ok true
        · obtain ⟨s, hs0, hs1, hq⟩ := part1 hP
          have := hall s hs0 hs1
          rw [hex] at hq
          linarith
        · rw [intersects_eq sqrt self bs hv hc (ne_of_gt ha)] at hP ⊢
          congr 1
          by_contra hd
          exact hP (by rw [Bool.not_eq_false] at hd; rw [hd])
    · exact intersects_invalid sqrt self bs hv

/-- Witness of C9 over the reals: the segment `(0,0,0) -> (4,0,0)` is accepted for the
sphere of centre `(2,0,0)` and radius 1 and has a point in it; the segment
`(0,0,0) -> (0,1,0)` has no point in the sphere of centre `(10,0,0)` and radius 1 and is
rejected. -/
theorem intersects_sound_witness :
    ((⟨0, 0, 0⟩ : Vec3 ℝ) ≠ ⟨4, 0, 0⟩ ∧
      intersects Real.sqrt (⟨⟨0, 0, 0⟩, ⟨4, 0, 0⟩, []⟩ : LineSegmentIntersector ℝ Unit)
        ⟨⟨2, 0, 0⟩, 1⟩ = Except.ok true ∧
      ∃ s : ℝ, 0 ≤ s ∧ s ≤ 1 ∧
        Vec3.length2 (Vec3.sub (segmentPoint ⟨0, 0, 0⟩ ⟨4, 0, 0⟩ s) ⟨2, 0, 0⟩) ≤ 1 * 1) ∧
    ((⟨0, 0, 0⟩ : Vec3 ℝ) ≠ ⟨0, 1, 0⟩ ∧
      intersects Real.sqrt (⟨⟨0, 0, 0⟩, ⟨0, 1, 0⟩, []⟩ : LineSegmentIntersector ℝ Unit)
        ⟨⟨10, 0, 0⟩, 1⟩ = Except.ok false) := by
  have h1 : (⟨0, 0, 0⟩ : Vec3 ℝ) ≠ ⟨4, 0, 0⟩ := by
    intro h; have := congrArg Vec3.x h; norm_num at this
  have h2 : (⟨0, 0, 0⟩ : Vec3 ℝ) ≠ ⟨0, 1, 0⟩ := by
    intro h; have := congrArg Vec3.y h; norm_num at this
  refine ⟨⟨h1, intersects_through_real,
    (intersects_sound Real.sqrt isSqrt_real
      (⟨⟨0, 0, 0⟩, ⟨4, 0, 0⟩, []⟩ : LineSegmentIntersector ℝ Unit) ⟨⟨2, 0, 0⟩, 1⟩ h1).1
      intersects_through_real⟩, h2,
    (intersects_sound Real.sqrt isSqrt_real
      (⟨⟨0, 0, 0⟩, ⟨0, 1, 0⟩, []⟩ : LineSegmentIntersector ℝ Unit) ⟨⟨10, 0, 0⟩, 1⟩ h2).2 ?_⟩
  intro s _ _
  simp only [segmentPoint, Vec3.length2, Vec3.sub, Vec3.add, Vec3.scale]
  nlinarith [mul_self_nonneg s]

/-- C10: the sphere test is conservative.  For a valid sphere: when `intersects` returns
false, no point `start + s*(end - start)` with `0 <= s <= 1` lies strictly inside the
sphere; and a segment with a point strictly inside the sphere makes `intersects` return
true, so it is not culled. -/
theorem intersects_conservative (sqrt : K → K) (hsqrt : IsSqrt sqrt)
    (self : LineSegmentIntersector K R) (bs : Sphere K) (hv : bs.valid) :
    (intersects sqrt self bs = Except.ok false →
        ∀ s : K, 0 ≤ s → s ≤ 1 →
          bs.radius * bs.radius ≤
            Vec3.length2 (Vec3.sub (segmentPoint self.start self.end_ s) bs.center)) ∧
      ((∃ s : K, 0 ≤ s ∧ s ≤ 1 ∧
          Vec3.length2 (Vec3.sub (segmentPoint self.start self.end_ s) bs.center) <
            bs.radius * bs.radius) →
        intersects sqrt self bs = Except.ok true) := by
  have hex : ∀ s : K, excess self bs s =
      Vec3.length2 (Vec3.sub (segmentPoint self.start self.end_ s) bs.center) -
        bs.radius * bs.radius := fun _ => rfl
  have part1 : intersects sqrt self bs ≠ Except.ok true → ¬ cOf self bs < 0 ∧
      ((self.start = self.end_) ∨ (0 < aOf self ∧ intersects sqrt self bs = Except.ok false)) →
      ∀ s : K, 0 ≤ s → s ≤ 1 → 0 ≤ excess self bs s := by
    intro hnt h s hs0 hs1
    obtain ⟨hc, h⟩ := h
    rcases h with h | ⟨ha, h⟩
    · rw [excess_degenerate self bs s h]
      exact not_lt.mp hc
    · rw [intersects_eq sqrt self bs hv hc (ne_of_gt ha)] at h
      have hP := of_decide_eq_false (Except.ok.inj h)
      rw [excess_eq]
      exact quad_nonneg_of_reject hsqrt _ _ _ ha hP s hs0 hs1
  have hc_of : intersects sqrt self bs ≠ Except.ok true → ¬ cOf self bs < 0 :=
    fun hnt hc => hnt (intersects_inside sqrt self bs hv hc)
  constructor
  · intro h s hs0 hs1
    have hnt : intersects sqrt self bs ≠ Except.ok true := by rw [h]; intro h'; cases h'
    have hq : 0 ≤ excess self bs s := by
      refine part1 hnt ⟨hc_of hnt, ?_⟩ s hs0 hs1
      by_cases he : self.start = self.end_
      · exact Or.inl he
      · exact Or.inr ⟨aOf_pos he, h⟩
    rw [hex] at hq
    linarith
  · rintro ⟨s, hs0, hs1, hlt⟩
    by_contra hnt
    have hc := hc_of hnt
    have hq : 0 ≤ excess self bs s := by
      refine part1 hnt ⟨hc, ?_⟩ s hs0 hs1
      by_cases he : self.start = self.end_
      · exact Or.inl he
      · refine Or.inr ⟨aOf_pos he, ?_⟩
        rw [intersects_eq sqrt self bs hv hc (ne_of_gt (aOf_pos he))] at hnt ⊢
        congr 1
        by_contra hd
        exact hnt (by rw [Bool.not_eq_false] at hd; rw [hd])
    rw [hex] at hq
    linarith

/-- Witness of C10 over the reals: the segment `(0,0,0) -> (0,1,0)` is rejected for the
sphere of centre `(10,0,0)` and radius 1 and stays outside it; the segment
`(0,0,0) -> (4,0,0)` passes through the centre of the sphere of centre `(2,0,0)` and
radius 1 and is accepted. -/
theorem intersects_conservative_witness :
    ((⟨⟨10, 0, 0⟩, 1⟩ : Sphere ℝ).valid ∧
      intersects Real.sqrt (⟨⟨0, 0, 0⟩, ⟨0, 1, 0⟩, []⟩ : LineSegmentIntersector ℝ Unit)
        ⟨⟨10, 0, 0⟩, 1⟩ = Except.ok false ∧
      ∀ s : ℝ, 0 ≤ s → s ≤ 1 →
        1 * 1 ≤ Vec3.length2 (Vec3.sub (segmentPoint ⟨0, 0, 0⟩ ⟨0, 1, 0⟩ s) ⟨10, 0, 0⟩)) ∧
    ((⟨⟨2, 0, 0⟩, 1⟩ : Sphere ℝ).valid ∧
      (∃ s : ℝ, 0 ≤ s ∧ s ≤ 1 ∧
        Vec3.length2 (Vec3.sub (segmentPoint ⟨0, 0, 0⟩ ⟨4, 0, 0⟩ s) ⟨2, 0, 0⟩) < 1 * 1) ∧
      intersects Real.sqrt (⟨⟨0, 0, 0⟩, ⟨4, 0, 0⟩, []⟩ : LineSegmentIntersector ℝ Unit)
        ⟨⟨2, 0, 0⟩, 1⟩ = Except.ok true) := by
  have hv1 : (⟨⟨10, 0, 0⟩, 1⟩ : Sphere ℝ).valid := by simp [Sphere.valid]
  have hv2 : (⟨⟨2, 0, 0⟩, 1⟩ : Sphere ℝ).valid := by simp [Sphere.valid]
  have hin : ∃ s : ℝ, 0 ≤ s ∧ s ≤ 1 ∧
      Vec3.length2 (Vec3.sub (segmentPoint ⟨0, 0, 0⟩ ⟨4, 0, 0⟩ s) ⟨2, 0, 0⟩) < 1 * 1 := by
    refine ⟨1 / 2, by norm_num, by norm_num, ?_⟩
    simp only [segmentPoint, Vec3.length2, Vec3.sub, Vec3.add, Vec3.scale]
    norm_num
  exact ⟨⟨hv1, intersects_far_real,
    (intersects_conservative Real.sqrt isSqrt_real
      (⟨⟨0, 0, 0⟩, ⟨0, 1, 0⟩, []⟩ : LineSegmentIntersector ℝ Unit) ⟨⟨10, 0, 0⟩, 1⟩ hv1).1
      intersects_far_real⟩, hv2, hin,
    (intersects_conservative Real.sqrt isSqrt_real
      (⟨⟨0, 0, 0⟩, ⟨4, 0, 0⟩, []⟩ : LineSegmentIntersector ℝ Unit) ⟨⟨2, 0, 0⟩, 1⟩ hv2).2 hin⟩

end LineSegmentIntersector

/-! ## The sphere test: endpoints, invalid spheres, zero-length segments -/

namespace LineSegmentIntersector
variable {K : Type} [LinearOrderedField K] {R : Type}

/-- For a valid sphere, a point of the segment strictly inside it makes `intersects`
return true. -/
theorem intersects_of_point_inside {sqrt : K → K} (hsqrt : IsSqrt sqrt)
    (self : LineSegmentIntersector K R) (bs : Sphere K) (hv : bs.valid) (s : K)
    (hs0 : 0 ≤ s) (hs1 : s ≤ 1) (hin : excess self bs s < 0) :
    intersects sqrt self bs = Except.ok true := by
  by_cases hc : cOf self bs < 0
  · exact intersects_inside sqrt self bs hv hc
  · by_cases he : self.start = self.end_
    · rw [excess_degenerate self bs s he] at hin
      exact absurd hin hc
    · have ha := aOf_pos he
      rw [intersects_eq sqrt self bs hv hc (ne_of_gt ha)]
      congr 1
      rw [decide_eq_true_iff]
      by_contra hP
      have := quad_nonneg_of_reject hsqrt _ _ _ ha hP s hs0 hs1
      rw [excess_eq] at hin
      linarith

theorem excess_one (self : LineSegmentIntersector K R) (bs : Sphere K) :
    excess self bs 1 =
      Vec3.length2 (Vec3.sub self.end_ bs.center) - bs.radius * bs.radius := by
  simp only [excess, segmentPoint, Vec3.length2, Vec3.sub, Vec3.add, Vec3.scale]
  ring

/-- C11 (amended): with the arithmetic read exactly, for a valid sphere, a segment with an
endpoint strictly inside the sphere makes
`intersects` return true: for `start` whatever `end` and the square root are, for `end`
with a true square root. -/
theorem intersects_endpoint_inside (self : LineSegmentIntersector K R) (bs : Sphere K)
    (hv : bs.valid) :
    (∀ sqrt : K → K,
        Vec3.length2 (Vec3.sub self.start bs.center) < bs.radius * bs.radius →
        intersects sqrt self bs = Except.ok true) ∧
      (∀ sqrt : K → K, IsSqrt sqrt →
        Vec3.length2 (Vec3.sub self.end_ bs.center) < bs.radius * bs.radius →
        intersects sqrt self bs = Except.ok true) := by
  constructor
  · intro sqrt h
    exact intersects_inside sqrt self bs hv (by unfold cOf; linarith)
  · intro sqrt hsqrt h
    exact intersects_of_point_inside hsqrt self bs hv 1 zero_le_one (le_refl _)
      (by rw [excess_one]; linarith)

/-- Witness of the amended C11 over the reals, for the sphere of centre `(10,0,0)` and radius 1: the
segment from the centre to `(0,1,0)` and the segment from `(0,1,0)` to the centre are
both accepted. -/
theorem intersects_endpoint_inside_witness :
    (⟨⟨10, 0, 0⟩, 1⟩ : Sphere ℝ).valid ∧
      intersects Real.sqrt (⟨⟨10, 0, 0⟩, ⟨0, 1, 0⟩, []⟩ : LineSegmentIntersector ℝ Unit)
        ⟨⟨10, 0, 0⟩, 1⟩ = Except.ok true ∧
      intersects Real.sqrt (⟨⟨0, 1, 0⟩, ⟨10, 0, 0⟩, []⟩ : LineSegmentIntersector ℝ Unit)
        ⟨⟨10, 0, 0⟩, 1⟩ = Except.ok true := by
  have hv : (⟨⟨10, 0, 0⟩, 1⟩ : Sphere ℝ).valid := by simp [Sphere.valid]
  refine ⟨hv, ?_, ?_⟩
  · exact (intersects_endpoint_inside
      (⟨⟨10, 0, 0⟩, ⟨0, 1, 0⟩, []⟩ : LineSegmentIntersector ℝ Unit) ⟨⟨10, 0, 0⟩, 1⟩ hv).1
      Real.sqrt (by simp only [Vec3.length2, Vec3.sub]; norm_num)
  · exact (intersects_endpoint_inside
      (⟨⟨0, 1, 0⟩, ⟨10, 0, 0⟩, []⟩ : LineSegmentIntersector ℝ Unit) ⟨⟨10, 0, 0⟩, 1⟩ hv).2
      Real.sqrt isSqrt_real (by simp only [Vec3.length2, Vec3.sub]; norm_num)

/-- C12: for a sphere whose `valid()` fails, `intersects` returns false whatever the
segment and the square root are (so also where the quadratic would divide by zero), and
the receiver is unchanged. -/
theorem intersects_invalid_sphere (sqrt : K → K) (self : LineSegmentIntersector K R)
    (bs : Sphere K) (hv : ¬ bs.valid) :
    intersects sqrt self bs = Except.ok false ∧
      intersectsCall sqrt self bs = Except.ok (false, self) := by
  have h := intersects_invalid sqrt self bs hv
  refine ⟨h, ?_⟩
  rw [intersectsCall, h]
  rfl

/-- Witness of C12: the zero-length segment at the origin and the sphere of centre
`(10,0,0)` and radius `-1`. -/
theorem intersects_invalid_sphere_witness :
    ¬ (⟨⟨10, 0, 0⟩, -1⟩ : Sphere ℝ).valid ∧
      intersects Real.sqrt (⟨⟨0, 0, 0⟩, ⟨0, 0, 0⟩, [()]⟩ : LineSegmentIntersector ℝ Unit)
        ⟨⟨10, 0, 0⟩, -1⟩ = Except.ok false ∧
      intersectsCall Real.sqrt (⟨⟨0, 0, 0⟩, ⟨0, 0, 0⟩, [()]⟩ : LineSegmentIntersector ℝ Unit)
        ⟨⟨10, 0, 0⟩, -1⟩ = Except.ok (false, ⟨⟨0, 0, 0⟩, ⟨0, 0, 0⟩, [()]⟩) := by
  have hv : ¬ (⟨⟨10, 0, 0⟩, -1⟩ : Sphere ℝ).valid := by simp [Sphere.valid]
  exact ⟨hv, intersects_invalid_sphere Real.sqrt _ _ hv⟩

/-- For a valid sphere, a zero-length segment whose point is not strictly inside the
sphere reaches the division `1.0/(2.0*a)` with `a = 0`. -/
theorem intersects_degenerate_fault (sqrt : K → K) (self : LineSegmentIntersector K R)
    (bs : Sphere K) (hv : bs.valid) (he : self.start = self.end_)
    (hc : ¬ cOf self bs < 0) :
    intersects sqrt self bs = Except.error Fault.divByZero := by
  have ha : aOf self = 0 := by simp [aOf, he, Vec3.sub, Vec3.length2]
  have hb : bOf self bs = 0 := by simp [bOf, he, Vec3.sub, Vec3.dot]
  unfold intersects
  dsimp only
  change (if ¬ bs.valid then _ else if cOf self bs < 0 then _ else
    if bOf self bs * bOf self bs - 4 * aOf self * cOf self bs < 0 then _ else
      (checkedDiv 1 (2 * aOf self) >>= _)) = _
  rw [if_neg (not_not.mpr hv), if_neg hc, ha, hb, if_neg (by simp)]
  simp [checkedDiv, bind, Except.bind]

/-- C18 fails on the code: for the zero-length segment at the origin and the sphere of
centre `(10,0,0)` and radius 1, `intersects` reaches `1.0/(2.0*a)` with `a = 0`. -/
theorem intersects_zero_length_divides :
    intersects Real.sqrt (⟨⟨0, 0, 0⟩, ⟨0, 0, 0⟩, []⟩ : LineSegmentIntersector ℝ Unit)
      ⟨⟨10, 0, 0⟩, 1⟩ = Except.error Fault.divByZero :=
  intersects_degenerate_fault Real.sqrt _ _ (by simp [Sphere.valid]) rfl
    (by simp only [cOf, Vec3.length2, Vec3.sub]; norm_num)

end LineSegmentIntersector

/-! ## The constructor -/

namespace TriangleIntersector
variable {K : Type} [LinearOrderedField K]

end TriangleIntersector

/-! ## `transform` and the two `intersect` methods -/

theorem checkedAt_cases {α : Type} (xs : List α) (i : Nat) :
    checkedAt xs i = Except.error Fault.outOfRange ∨ ∃ x, checkedAt xs i = Except.ok x := by
  unfold checkedAt
  cases xs[i]? with
  | none => exact Or.inl rfl
  | some x => exact Or.inr ⟨x, rfl⟩

theorem checkedAt_of_getElem? {α : Type} {xs : List α} {i : Nat} {x : α}
    (h : xs[i]? = some x) : checkedAt xs i = Except.ok x := by
  unfold checkedAt
  rw [h]

theorem bind_step {α β : Type} (x : Except Fault α) (f : α → Except Fault β)
    (k : Except Fault β)
    (hx : x = Except.error Fault.outOfRange ∨ ∃ a, x = Except.ok a)
    (hf : ∀ a, f a = Except.error Fault.outOfRange ∨ f a = k) :
    (x >>= f) = Except.error Fault.outOfRange ∨ (x >>= f) = k := by
  rcases hx with h | ⟨a, h⟩
  · left; rw [h]; rfl
  · rw [h]; exact hf a

namespace LineSegmentIntersector
variable {K : Type} [LinearOrderedField K] {R : Type}

/-- One pass of the loop body reads six array elements and calls the triangle test; it
either stops at a read out of range or goes on with the receiver as it was. -/
theorem triangleLoop_step (ti : TriangleIntersector K) (vertices : List (Vec3 K))
    (us_indices : List Nat) (i : Nat)
    (k : Except Fault (LineSegmentIntersector K R)) :
    (do
      let i0 ← checkedAt us_indices i
      let v0 ← checkedAt vertices i0
      let i1 ← checkedAt us_indices ((i + 1) % uint32Size)
      let v1 ← checkedAt vertices i1
      let i2 ← checkedAt us_indices ((i + 2) % uint32Size)
      let v2 ← checkedAt vertices i2
      let _ ← TriangleIntersector.intersect ti v0 v1 v2
      k) = Except.error Fault.outOfRange ∨
    (do
      let i0 ← checkedAt us_indices i
      let v0 ← checkedAt vertices i0
      let i1 ← checkedAt us_indices ((i + 1) % uint32Size)
      let v1 ← checkedAt vertices i1
      let i2 ← checkedAt us_indices ((i + 2) % uint32Size)
      let v2 ← checkedAt vertices i2
      let _ ← TriangleIntersector.intersect ti v0 v1 v2
      k) = k := by
  refine bind_step _ _ _ (checkedAt_cases _ _) (fun i0 => ?_)
  refine bind_step _ _ _ (checkedAt_cases _ _) (fun v0 => ?_)
  refine bind_step _ _ _ (checkedAt_cases _ _) (fun i1 => ?_)
  refine bind_step _ _ _ (checkedAt_cases _ _) (fun v1 => ?_)
  refine bind_step _ _ _ (checkedAt_cases _ _) (fun i2 => ?_)
  refine bind_step _ _ _ (checkedAt_cases _ _) (fun v2 => ?_)
  exact bind_step _ _ _ (Or.inr ⟨_, TriangleIntersector.intersect_eq ti v0 v1 v2⟩)
    (fun _ => Or.inr rfl)

/-- The loop either stops at a read out of range or ends with the receiver as it was. -/
theorem triangleLoop_cases (ti : TriangleIntersector K) (vertices : List (Vec3 K))
    (us_indices : List Nat) (endIndex : Nat) (hend : endIndex < uint32Size)
    (self : LineSegmentIntersector K R) (i : Nat) :
    triangleLoop ti vertices us_indices endIndex hend i self =
        Except.error Fault.outOfRange ∨
      triangleLoop ti vertices us_indices endIndex hend i self = Except.ok self := by
  have key : ∀ n i, loopMeasure i = n →
      (triangleLoop ti vertices us_indices endIndex hend i self =
          Except.error Fault.outOfRange ∨
        triangleLoop ti vertices us_indices endIndex hend i self = Except.ok self) := by
    intro n
    induction n using Nat.strong_induction_on with
    | _ n ih =>
      intro i hm
      rw [triangleLoop]
      by_cases h : i < endIndex
      · rw [dif_pos h]
        have hlt : loopMeasure ((i + 3) % uint32Size) < n := by
          have hE : endIndex < 4294967296 := hend
          rw [← hm]
          simp only [loopMeasure, uint32Size]
          omega
        rcases ih _ hlt ((i + 3) % uint32Size) rfl with hr | hr
        · rw [hr]
          rcases triangleLoop_step ti vertices us_indices i
            (Except.error Fault.outOfRange :
              Except Fault (LineSegmentIntersector K R)) with h' | h'
          · exact Or.inl h'
          · exact Or.inl h'
        · rw [hr]
          exact triangleLoop_step ti vertices us_indices i _
      · rw [dif_neg h]
        exact Or.inr rfl
  exact key _ i rfl

end LineSegmentIntersector

theorem checkedAt_of_lt {α : Type} (xs : List α) {i : Nat} (h : i < xs.length) :
    ∃ x, checkedAt xs i = Except.ok x :=
  ⟨xs[i], checkedAt_of_getElem? (List.getElem?_eq_getElem h)⟩

namespace LineSegmentIntersector
variable {K : Type} [LinearOrderedField K] {R : Type}

theorem triangleLoop_in_range (ti : TriangleIntersector K) (vertices : List (Vec3 K))
    (us_indices : List Nat) (firstIndex indexCount endIndex : Nat)
    (hend : endIndex < uint32Size) (self : LineSegmentIntersector K R)
    (hE : endIndex = firstIndex + indexCount)
    (hwrap : firstIndex + indexCount + 2 < uint32Size)
    (hr : TriplesInRange vertices us_indices firstIndex indexCount) (k : Nat) :
    triangleLoop ti vertices us_indices endIndex hend (firstIndex + 3 * k) self =
      Except.ok self := by
  have hN : firstIndex + indexCount + 2 < 4294967296 := hwrap
  have key : ∀ n k, indexCount - 3 * k = n →
      triangleLoop ti vertices us_indices endIndex hend (firstIndex + 3 * k) self =
        Except.ok self := by
    intro n
    induction n using Nat.strong_induction_on with
    | _ n ih =>
      intro k hk
      rw [triangleLoop]
      by_cases h : firstIndex + 3 * k < endIndex
      · rw [dif_pos h]
        have h3 : 3 * k < indexCount := by omega
        obtain ⟨n0, h0, hn0⟩ := hr k 0 h3 (by omega)
        rw [Nat.add_zero] at h0
        obtain ⟨n1, h1, hn1⟩ := hr k 1 h3 (by omega)
        obtain ⟨n2, h2, hn2⟩ := hr k 2 h3 (by omega)
        obtain ⟨v0, hv0⟩ := checkedAt_of_lt vertices hn0
        obtain ⟨v1, hv1⟩ := checkedAt_of_lt vertices hn1
        obtain ⟨v2, hv2⟩ := checkedAt_of_lt vertices hn2
        have e1 : (firstIndex + 3 * k + 1) % uint32Size = firstIndex + 3 * k + 1 := by
          simp only [uint32Size]; omega
        have e2 : (firstIndex + 3 * k + 2) % uint32Size = firstIndex + 3 * k + 2 := by
          simp only [uint32Size]; omega
        have e3 : (firstIndex + 3 * k + 3) % uint32Size = firstIndex + 3 * (k + 1) := by
          simp only [uint32Size]; omega
        rw [e1, e2, e3, checkedAt_of_getElem? h0, checkedAt_of_getElem? h1,
          checkedAt_of_getElem? h2]
        simp only [bind, Except.bind, hv0, hv1, hv2, TriangleIntersector.intersect_eq]
        exact ih (indexCount - 3 * (k + 1)) (by omega) (k + 1) rfl
      · rw [dif_neg h]
        rfl
  exact key _ k rfl

end LineSegmentIntersector

namespace LineSegmentIntersector
variable {K : Type} [LinearOrderedField K] {R : Type}

/-- The early returns of the indexed `intersect`. -/
theorem intersectIndexed_early (sqrt : K → K) (self : LineSegmentIntersector K R)
    (topology : Nat) (arrays : List (Option (Data K))) (indices : Option (Data K))
    (firstIndex indexCount : Nat)
    (h : arrays = [] ∨ indices = none ∨ indexCount = 0 ∨
      castVec3Array (arrays.headD none) = none ∨ castUshortArray indices = none) :
    intersectIndexed sqrt self topology arrays indices firstIndex indexCount =
      Except.ok (false, self) := by
  unfold intersectIndexed
  by_cases h0 : arrays.isEmpty ∨ indices.isNone ∨ indexCount = 0
  · rw [if_pos h0]; rfl
  · rw [if_neg h0]
    rcases h with h | h | h | h | h
    · exact absurd (Or.inl (by rw [h]; rfl)) h0
    · exact absurd (Or.inr (Or.inl (by rw [h]; rfl))) h0
    · exact absurd (Or.inr (Or.inr h)) h0
    · rw [h]; rfl
    · rw [h]
      cases castVec3Array (arrays.headD none) <;> rfl

/-- The indexed `intersect` past its early returns. -/
theorem intersectIndexed_buffers (sqrt : K → K) (self : LineSegmentIntersector K R)
    (topology : Nat) (arrays : List (Option (Data K))) (indices : Option (Data K))
    (firstIndex indexCount : Nat) (vertices : List (Vec3 K)) (us_indices : List Nat)
    (hv : castVec3Array (arrays.headD none) = some vertices)
    (hi : castUshortArray indices = some us_indices) (hn : indexCount ≠ 0) :
    intersectIndexed sqrt self topology arrays indices firstIndex indexCount =
      if topology = VK_PRIMITIVE_TOPOLOGY_TRIANGLE_LIST then
        (TriangleIntersector.construct sqrt self.start self.end_ >>= fun triIntsector =>
          triangleLoop triIntsector vertices us_indices
              ((firstIndex + indexCount) % uint32Size) (Nat.mod_lt _ (by decide))
              firstIndex self >>= fun self' =>
            pure (decide (self'.intersections.length ≠ self.intersections.length), self'))
      else
        pure (decide (self.intersections.length ≠ self.intersections.length), self) := by
  have h0 : ¬ (arrays.isEmpty ∨ indices.isNone ∨ indexCount = 0) := by
    rintro (h | h | h)
    · rw [List.isEmpty_iff] at h
      rw [h] at hv
      cases hv
    · rw [Option.isNone_iff_eq_none] at h
      rw [h] at hi
      cases hi
    · exact hn h
  unfold intersectIndexed
  rw [if_neg h0, hv, hi]

/-- Whatever the input, the indexed `intersect` stops at a read out of range or returns
false with the receiver as it was. -/
theorem intersectIndexed_cases (sqrt : K → K) (self : LineSegmentIntersector K R)
    (topology : Nat) (arrays : List (Option (Data K))) (indices : Option (Data K))
    (firstIndex indexCount : Nat) :
    intersectIndexed sqrt self topology arrays indices firstIndex indexCount =
        Except.error Fault.outOfRange ∨
      intersectIndexed sqrt self topology arrays indices firstIndex indexCount =
        Except.ok (false, self) := by
  by_cases hn : indexCount = 0
  · exact Or.inr (intersectIndexed_early sqrt self topology arrays indices firstIndex
      indexCount (Or.inr (Or.inr (Or.inl hn))))
  cases hv : castVec3Array (arrays.headD none) with
  | none =>
    exact Or.inr (intersectIndexed_early sqrt self topology arrays indices firstIndex
      indexCount (Or.inr (Or.inr (Or.inr (Or.inl hv)))))
  | some vertices =>
    cases hi : castUshortArray indices with
    | none =>
      exact Or.inr (intersectIndexed_early sqrt self topology arrays indices firstIndex
        indexCount (Or.inr (Or.inr (Or.inr (Or.inr hi)))))
    | some us_indices =>
      rw [intersectIndexed_buffers sqrt self topology arrays indices firstIndex indexCount
        vertices us_indices hv hi hn]
      by_cases ht : topology = VK_PRIMITIVE_TOPOLOGY_TRIANGLE_LIST
      · rw [if_pos ht]
        obtain ⟨ti, hti, _⟩ := TriangleIntersector.construct_total sqrt self.start self.end_
        rw [hti]
        rcases triangleLoop_cases ti vertices us_indices
          ((firstIndex + indexCount) % uint32Size) (Nat.mod_lt _ (by decide)) self
          firstIndex with hl | hl
        · left
          simp only [bind, Except.bind, hl]
        · right
          simp only [bind, Except.bind, hl, pure, Except.pure, ne_eq, not_true_eq_false,
            decide_False]
      · rw [if_neg ht]
        right
        simp only [pure, Except.pure, ne_eq, not_true_eq_false, decide_False]

/-- When no sum wraps and every read is in range, the indexed `intersect` returns false
with the receiver as it was. -/
theorem intersectIndexed_in_range (sqrt : K → K) (self : LineSegmentIntersector K R)
    (topology : Nat) (arrays : List (Option (Data K))) (indices : Option (Data K))
    (firstIndex indexCount : Nat) (vertices : List (Vec3 K)) (us_indices : List Nat)
    (hv : castVec3Array (arrays.headD none) = some vertices)
    (hi : castUshortArray indices = some us_indices)
    (hwrap : firstIndex + indexCount + 2 < uint32Size)
    (hr : TriplesInRange vertices us_indices firstIndex indexCount) :
    intersectIndexed sqrt self topology arrays indices firstIndex indexCount =
      Except.ok (false, self) := by
  rcases intersectIndexed_cases sqrt self topology arrays indices firstIndex indexCount
    with h | h
  · exfalso
    by_cases hn : indexCount = 0
    · rw [intersectIndexed_early sqrt self topology arrays indices firstIndex indexCount
        (Or.inr (Or.inr (Or.inl hn)))] at h
      cases h
    rw [intersectIndexed_buffers sqrt self topology arrays indices firstIndex indexCount
      vertices us_indices hv hi hn] at h
    by_cases ht : topology = VK_PRIMITIVE_TOPOLOGY_TRIANGLE_LIST
    · rw [if_pos ht] at h
      obtain ⟨ti, hti, _⟩ := TriangleIntersector.construct_total sqrt self.start self.end_
      have hmod : (firstIndex + indexCount) % uint32Size = firstIndex + indexCount := by
        have : firstIndex + indexCount + 2 < 4294967296 := hwrap
        simp only [uint32Size]; omega
      have hl := triangleLoop_in_range ti vertices us_indices firstIndex indexCount
        ((firstIndex + indexCount) % uint32Size) (Nat.mod_lt _ (by decide)) self hmod hwrap
        hr 0
      rw [Nat.mul_zero, Nat.add_zero] at hl
      rw [hti] at h
      simp only [bind, Except.bind, hl, pure, Except.pure] at h
      cases h
    · rw [if_neg ht] at h
      cases h
  · exact h

end LineSegmentIntersector

namespace LineSegmentIntersector

/-- C13: `transform(m)` returns a new intersector whose `start` is `m * start` and whose
`end` is `m * end`, and the receiver, with its `start`, `end` and intersection records, is
unchanged. -/
theorem transform_frame {K R M : Type} (mul : M → Vec3 K → Vec3 K)
    (self : LineSegmentIntersector K R) (m : M) :
    (transform mul self m).1.start = mul m self.start ∧
      (transform mul self m).1.end_ = mul m self.end_ ∧
      (transform mul self m).2 = self ∧
      (transform mul self m).2.start = self.start ∧
      (transform mul self m).2.end_ = self.end_ ∧
      (transform mul self m).2.intersections = self.intersections :=
  ⟨rfl, rfl, rfl, rfl, rfl, rfl⟩

/-- C17: the non-indexed `intersect` returns false and leaves the receiver unchanged,
whatever the topology, the vertex buffers, `firstVertex` and `vertexCount` are. -/
theorem intersect_not_implemented {K R : Type} (self : LineSegmentIntersector K R) (topology : Nat)
    (arrays : List (Option (Data K))) (firstVertex vertexCount : Nat) :
    (intersect self topology arrays firstVertex vertexCount).1 = false ∧
      (intersect self topology arrays firstVertex vertexCount).2 = self ∧
      (intersect self topology arrays firstVertex vertexCount).2.start = self.start ∧
      (intersect self topology arrays firstVertex vertexCount).2.end_ = self.end_ ∧
      (intersect self topology arrays firstVertex vertexCount).2.intersections =
        self.intersections :=
  ⟨rfl, rfl, rfl, rfl, rfl⟩

end LineSegmentIntersector

namespace LineSegmentIntersector
variable {K : Type} [LinearOrderedField K] {R : Type}

/-- C14 fails on the code.  Vertex buffer `(0,0,0), (1,0,0), (0,1,0), (1,1,0)`, index
buffer `0,1,2, 1,3,2` (two triangles sharing an edge), segment
`(4/5, 4/5, -1) -> (4/5, 4/5, 1)`: the triangle test rejects the first triple and accepts
the second, and the call appends no record and returns false. -/
theorem intersectIndexed_two_triangles :
    TriangleIntersector.construct Real.sqrt ⟨4 / 5, 4 / 5, -1⟩ ⟨4 / 5, 4 / 5, 1⟩ =
        Except.ok (TriangleIntersector.vertical (4 / 5 : ℝ) (4 / 5) (-1) 1) ∧
      TriangleIntersector.intersect (TriangleIntersector.vertical (4 / 5 : ℝ) (4 / 5) (-1) 1)
        ⟨0, 0, 0⟩ ⟨1, 0, 0⟩ ⟨0, 1, 0⟩ = Except.ok none ∧
      TriangleIntersector.intersect (TriangleIntersector.vertical (4 / 5 : ℝ) (4 / 5) (-1) 1)
        ⟨1, 0, 0⟩ ⟨1, 1, 0⟩ ⟨0, 1, 0⟩ =
          Except.ok (some { r := 1 / 2, r0 := 1 / 5, r1 := 3 / 5, r2 := 1 / 5, t := 1 }) ∧
      intersectIndexed Real.sqrt
        (⟨⟨4 / 5, 4 / 5, -1⟩, ⟨4 / 5, 4 / 5, 1⟩, []⟩ : LineSegmentIntersector ℝ Unit)
        VK_PRIMITIVE_TOPOLOGY_TRIANGLE_LIST
        [some (Data.vec3Array [⟨0, 0, 0⟩, ⟨1, 0, 0⟩, ⟨0, 1, 0⟩, ⟨1, 1, 0⟩])]
        (some (Data.ushortArray [0, 1, 2, 1, 3, 2])) 0 6 =
          Except.ok (false, ⟨⟨4 / 5, 4 / 5, -1⟩, ⟨4 / 5, 4 / 5, 1⟩, []⟩) := by
  have he1 : (epsilon : ℝ) < 1 := by
    unfold epsilon
    norm_num
  refine ⟨TriangleIntersector.construct_probe_real _ _, ?_, ?_, ?_⟩
  · rw [TriangleIntersector.intersect_vertical, if_neg (by norm_num)]
  · have hA : TriangleIntersector.Accepts
        (TriangleIntersector.vertical (4 / 5 : ℝ) (4 / 5) (-1) 1)
        ⟨1, 0, 0⟩ ⟨1, 1, 0⟩ ⟨0, 1, 0⟩ := by
      simp only [TriangleIntersector.Accepts, TriangleIntersector.detOf,
        TriangleIntersector.uOf, TriangleIntersector.vOf, TriangleIntersector.tOf,
        TriangleIntersector.vertical, Vec3.dot, Vec3.cross, Vec3.sub]
      norm_num
      exact he1
    rw [TriangleIntersector.intersect_eq, if_pos hA]
    simp only [TriangleIntersector.hitOf, TriangleIntersector.detOf,
      TriangleIntersector.uOf, TriangleIntersector.vOf, TriangleIntersector.tOf,
      TriangleIntersector.vertical, Vec3.dot, Vec3.cross, Vec3.sub]
    norm_num
  · refine intersectIndexed_in_range _ _ _ _ _ _ _
      [⟨0, 0, 0⟩, ⟨1, 0, 0⟩, ⟨0, 1, 0⟩, ⟨1, 1, 0⟩] [0, 1, 2, 1, 3, 2] rfl rfl
      (by simp [uint32Size]) ?_
    intro k j hk hj
    have hk2 : k < 2 := by omega
    interval_cases k <;> interval_cases j <;> simp

/-- C15: soft failure of the indexed `intersect`.  With an empty vertex buffer list, an
absent index buffer, `indexCount = 0`, a first vertex buffer that is not a `vec3` array,
an index buffer that is not a `ushort` array, or a topology other than `TRIANGLE_LIST`,
the call returns false and the receiver is unchanged. -/
theorem intersectIndexed_soft_failure (sqrt : K → K) (self : LineSegmentIntersector K R)
    (topology : Nat) (arrays : List (Option (Data K))) (indices : Option (Data K))
    (firstIndex indexCount : Nat)
    (h : arrays = [] ∨ indices = none ∨ indexCount = 0 ∨
      castVec3Array (arrays.headD none) = none ∨ castUshortArray indices = none ∨
      topology ≠ VK_PRIMITIVE_TOPOLOGY_TRIANGLE_LIST) :
    intersectIndexed sqrt self topology arrays indices firstIndex indexCount =
      Except.ok (false, self) := by
  rcases h with h | h | h | h | h | h
  · exact intersectIndexed_early _ _ _ _ _ _ _ (Or.inl h)
  · exact intersectIndexed_early _ _ _ _ _ _ _ (Or.inr (Or.inl h))
  · exact intersectIndexed_early _ _ _ _ _ _ _ (Or.inr (Or.inr (Or.inl h)))
  · exact intersectIndexed_early _ _ _ _ _ _ _ (Or.inr (Or.inr (Or.inr (Or.inl h))))
  · exact intersectIndexed_early _ _ _ _ _ _ _ (Or.inr (Or.inr (Or.inr (Or.inr h))))
  · by_cases hn : indexCount = 0
    · exact intersectIndexed_early _ _ _ _ _ _ _ (Or.inr (Or.inr (Or.inl hn)))
    cases hv : castVec3Array (arrays.headD none) with
    | none => exact intersectIndexed_early _ _ _ _ _ _ _ (Or.inr (Or.inr (Or.inr (Or.inl hv))))
    | some vertices =>
      cases hi : castUshortArray indices with
      | none =>
        exact intersectIndexed_early _ _ _ _ _ _ _ (Or.inr (Or.inr (Or.inr (Or.inr hi))))
      | some us_indices =>
        rw [intersectIndexed_buffers sqrt self topology arrays indices firstIndex indexCount
          vertices us_indices hv hi hn, if_neg h]
        simp only [pure, Except.pure, ne_eq, not_true_eq_false, decide_False]

/-- Witness of C15: a `TRIANGLE_STRIP` call (topology 4) over a hit triangle, and a
`TRIANGLE_LIST` call whose index buffer is a `vec3` array, both with one record already
gathered. -/
theorem intersectIndexed_soft_failure_witness :
    intersectIndexed Real.sqrt
        (⟨⟨1 / 5, 1 / 5, -1⟩, ⟨1 / 5, 1 / 5, 1⟩, [7]⟩ : LineSegmentIntersector ℝ Nat) 4
        [some (Data.vec3Array [⟨0, 0, 0⟩, ⟨1, 0, 0⟩, ⟨0, 1, 0⟩])]
        (some (Data.ushortArray [0, 1, 2])) 0 3 =
          Except.ok (false, ⟨⟨1 / 5, 1 / 5, -1⟩, ⟨1 / 5, 1 / 5, 1⟩, [7]⟩) ∧
      intersectIndexed Real.sqrt
        (⟨⟨1 / 5, 1 / 5, -1⟩, ⟨1 / 5, 1 / 5, 1⟩, [7]⟩ : LineSegmentIntersector ℝ Nat)
        VK_PRIMITIVE_TOPOLOGY_TRIANGLE_LIST
        [some (Data.vec3Array [⟨0, 0, 0⟩, ⟨1, 0, 0⟩, ⟨0, 1, 0⟩])]
        (some (Data.vec3Array [])) 0 3 =
          Except.ok (false, ⟨⟨1 / 5, 1 / 5, -1⟩, ⟨1 / 5, 1 / 5, 1⟩, [7]⟩) :=
  ⟨intersectIndexed_soft_failure _ _ _ _ _ _ _
      (Or.inr (Or.inr (Or.inr (Or.inr (Or.inr (by decide)))))),
    intersectIndexed_soft_failure _ _ _ _ _ _ _
      (Or.inr (Or.inr (Or.inr (Or.inr (Or.inl rfl)))))⟩

/-- C16 fails on the code.  With a one-element index buffer and `indexCount = 1` the loop
reads position 1 of the index buffer; with the index 5 into a one-element vertex buffer
it reads position 5 of the vertex buffer.  Neither read is in range. -/
theorem intersectIndexed_reads_out_of_range :
    intersectIndexed Real.sqrt
        (⟨⟨1 / 5, 1 / 5, -1⟩, ⟨1 / 5, 1 / 5, 1⟩, []⟩ : LineSegmentIntersector ℝ Unit)
        VK_PRIMITIVE_TOPOLOGY_TRIANGLE_LIST
        [some (Data.vec3Array [⟨0, 0, 0⟩])] (some (Data.ushortArray [0])) 0 1 =
          Except.error Fault.outOfRange ∧
      intersectIndexed Real.sqrt
        (⟨⟨1 / 5, 1 / 5, -1⟩, ⟨1 / 5, 1 / 5, 1⟩, []⟩ : LineSegmentIntersector ℝ Unit)
        VK_PRIMITIVE_TOPOLOGY_TRIANGLE_LIST
        [some (Data.vec3Array [⟨0, 0, 0⟩])] (some (Data.ushortArray [5, 0, 0])) 0 3 =
          Except.error Fault.outOfRange := by
  constructor
  · rw [intersectIndexed_buffers Real.sqrt
        (⟨⟨1 / 5, 1 / 5, -1⟩, ⟨1 / 5, 1 / 5, 1⟩, []⟩ : LineSegmentIntersector ℝ Unit)
        VK_PRIMITIVE_TOPOLOGY_TRIANGLE_LIST [some (Data.vec3Array [⟨0, 0, 0⟩])]
        (some (Data.ushortArray [0])) 0 1 [⟨0, 0, 0⟩] [0] rfl rfl (by decide),
      if_pos rfl, TriangleIntersector.construct_probe_real]
    simp only [bind, Except.bind]
    rw [triangleLoop, dif_pos (by simp [uint32Size])]
    simp [checkedAt, uint32Size, bind, Except.bind]
  · rw [intersectIndexed_buffers Real.sqrt
        (⟨⟨1 / 5, 1 / 5, -1⟩, ⟨1 / 5, 1 / 5, 1⟩, []⟩ : LineSegmentIntersector ℝ Unit)
        VK_PRIMITIVE_TOPOLOGY_TRIANGLE_LIST [some (Data.vec3Array [⟨0, 0, 0⟩])]
        (some (Data.ushortArray [5, 0, 0])) 0 3 [⟨0, 0, 0⟩] [5, 0, 0] rfl rfl (by decide),
      if_pos rfl, TriangleIntersector.construct_probe_real]
    simp only [bind, Except.bind]
    rw [triangleLoop, dif_pos (by simp [uint32Size])]
    simp [checkedAt, bind, Except.bind]

/-- C20: the indexed `intersect` never records a hit.  Whatever the input, the call
either reads out of range or returns false with the receiver, and so its record list, as
it was; when no sum wraps and every position read is in range it returns false with the
receiver as it was, whatever the triangle tests inside the loop returned. -/
theorem intersectIndexed_no_record (sqrt : K → K) (self : LineSegmentIntersector K R)
    (topology : Nat) (arrays : List (Option (Data K))) (indices : Option (Data K))
    (firstIndex indexCount : Nat) :
    (intersectIndexed sqrt self topology arrays indices firstIndex indexCount =
          Except.error Fault.outOfRange ∨
        intersectIndexed sqrt self topology arrays indices firstIndex indexCount =
          Except.ok (false, self)) ∧
      (∀ (vertices : List (Vec3 K)) (us_indices : List Nat),
        castVec3Array (arrays.headD none) = some vertices →
        castUshortArray indices = some us_indices →
        firstIndex + indexCount + 2 < uint32Size →
        TriplesInRange vertices us_indices firstIndex indexCount →
        intersectIndexed sqrt self topology arrays indices firstIndex indexCount =
          Except.ok (false, self)) :=
  ⟨intersectIndexed_cases sqrt self topology arrays indices firstIndex indexCount,
    fun vertices us_indices hv hi hwrap hr =>
      intersectIndexed_in_range sqrt self topology arrays indices firstIndex indexCount
        vertices us_indices hv hi hwrap hr⟩

/-- Witness of C20: the unit triangle is hit by the segment
`(1/5, 1/5, -1) -> (1/5, 1/5, 1)` inside the loop, and the call still returns false and
leaves the one record already gathered as it was. -/
theorem intersectIndexed_no_record_witness :
    TriangleIntersector.construct Real.sqrt ⟨1 / 5, 1 / 5, -1⟩ ⟨1 / 5, 1 / 5, 1⟩ =
        Except.ok (TriangleIntersector.vertical (1 / 5 : ℝ) (1 / 5) (-1) 1) ∧
      TriangleIntersector.intersect (TriangleIntersector.vertical (1 / 5 : ℝ) (1 / 5) (-1) 1)
        ⟨0, 0, 0⟩ ⟨1, 0, 0⟩ ⟨0, 1, 0⟩ =
          Except.ok (some { r := 1 / 2, r0 := 3 / 5, r1 := 1 / 5, r2 := 1 / 5, t := 1 }) ∧
      TriplesInRange ([⟨0, 0, 0⟩, ⟨1, 0, 0⟩, ⟨0, 1, 0⟩] : List (Vec3 ℝ)) [0, 1, 2] 0 3 ∧
      intersectIndexed Real.sqrt
        (⟨⟨1 / 5, 1 / 5, -1⟩, ⟨1 / 5, 1 / 5, 1⟩, [7]⟩ : LineSegmentIntersector ℝ Nat)
        VK_PRIMITIVE_TOPOLOGY_TRIANGLE_LIST
        [some (Data.vec3Array [⟨0, 0, 0⟩, ⟨1, 0, 0⟩, ⟨0, 1, 0⟩])]
        (some (Data.ushortArray [0, 1, 2])) 0 3 =
          Except.ok (false, ⟨⟨1 / 5, 1 / 5, -1⟩, ⟨1 / 5, 1 / 5, 1⟩, [7]⟩) := by
  have hr : TriplesInRange ([⟨0, 0, 0⟩, ⟨1, 0, 0⟩, ⟨0, 1, 0⟩] : List (Vec3 ℝ))
      [0, 1, 2] 0 3 := by
    intro k j hk hj
    obtain rfl : k = 0 := by omega
    interval_cases j <;> simp
  exact ⟨TriangleIntersector.construct_probe_real _ _, TriangleIntersector.intersect_probe_hit,
    hr, (intersectIndexed_no_record Real.sqrt _ _ _ _ _ _).2 _ _ rfl rfl
      (by simp [uint32Size]) hr⟩

end LineSegmentIntersector

end VsgIntersection

/-! ## The rounded reading: where the program departs from the exact reading

Each statement below evaluates the program in `float` or `double` at one input and sets the
result against the exact geometry of that input. -/

namespace VsgIntersection

namespace TriangleIntersector

/-- Counterexample to C4 as stated, in `float`.  For the segment `(0,-1,1) -> (0,2,0)` and
the vertices `(0,-1,0)`, `(-2,-2,0)`, `(2,0,2)`, `intersect(v0, v1, v2)` returns false and
`intersect(v0, v2, v1)` returns true: the two determinants round differently. -/
theorem intersect_double_sided_counterexample :
    (constructRounded ⟨0, -1, 1⟩ ⟨0, 2, 0⟩ >>= fun ti =>
        intersectRounded ti ⟨0, -1, 0⟩ ⟨-2, -2, 0⟩ ⟨2, 0, 2⟩) = Except.ok none ∧
      (constructRounded ⟨0, -1, 1⟩ ⟨0, 2, 0⟩ >>= fun ti =>
        intersectRounded ti ⟨0, -1, 0⟩ ⟨2, 0, 2⟩ ⟨-2, -2, 0⟩) =
      Except.ok (some { r := 0, r0 := 0, r1 := 1 / 2, r2 := 1 / 2, t := 0 }) :=
  ⟨eq_ok_of_toOption (by decide!), eq_ok_of_toOption (by decide!)⟩

end TriangleIntersector

namespace LineSegmentIntersector

/-- Counterexample to C11 as stated, in `double`, for the unit sphere at the origin.  The
point `(1 - 2^-53, 7 * 2^-29, 0)` is strictly inside, yet as `start` of a segment to
`(2,0,0)` it gives `c = 0` and the segment is rejected; the point `(1 - 2^-53, 0, 0)` is
strictly inside, yet as `end` of a segment from `(1,1,0)` it gives the roots
`r1 = r2 = 1` and the segment is rejected. -/
theorem intersects_endpoint_inside_counterexample :
    (binary64.IsVec ⟨1 - 1 / 2 ^ 53, 7 / 2 ^ 29, 0⟩ ∧
      (⟨⟨0, 0, 0⟩, 1⟩ : Sphere ℚ).valid ∧
      Vec3.length2 (Vec3.sub (⟨1 - 1 / 2 ^ 53, 7 / 2 ^ 29, 0⟩ : Vec3 ℚ) ⟨0, 0, 0⟩) < 1 * 1 ∧
      intersectsRounded
        (⟨⟨1 - 1 / 2 ^ 53, 7 / 2 ^ 29, 0⟩, ⟨2, 0, 0⟩, []⟩ : LineSegmentIntersector ℚ Unit)
        ⟨⟨0, 0, 0⟩, 1⟩ = Except.ok false) ∧
    (binary64.IsVec ⟨1 - 1 / 2 ^ 53, 0, 0⟩ ∧
      Vec3.length2 (Vec3.sub (⟨1 - 1 / 2 ^ 53, 0, 0⟩ : Vec3 ℚ) ⟨0, 0, 0⟩) < 1 * 1 ∧
      intersectsRounded
        (⟨⟨1, 1, 0⟩, ⟨1 - 1 / 2 ^ 53, 0, 0⟩, []⟩ : LineSegmentIntersector ℚ Unit)
        ⟨⟨0, 0, 0⟩, 1⟩ = Except.ok false) :=
  ⟨⟨⟨eq_ok_of_toOption (by decide!), eq_ok_of_toOption (by decide!),
        eq_ok_of_toOption (by decide!)⟩,
      by decide!, by decide!, eq_ok_of_toOption (by decide!)⟩,
    ⟨eq_ok_of_toOption (by decide!), eq_ok_of_toOption (by decide!),
      eq_ok_of_toOption (by decide!)⟩,
    by decide!, eq_ok_of_toOption (by decide!)⟩

end LineSegmentIntersector

end VsgIntersection
